import Mathlib

/-!
Verification development for the neurofab z1 cluster SNN core.

This file gives a shallow embedding of the parts of the repository that the
specification claims are about:

* the topology compiler, src/python_tools/lib/snn_compiler.py
  (weight generation, quantization, node assignment, 256-byte entry packing);
* the STDP engine, src/emulator/core/snn_engine_stdp.py
  (binary table loader, spike processing, STDP weight clamping,
  cluster coordinator);
* the plain engine, src/emulator/core/snn_engine.py
  (parsed-neuron loader, spike injection and processing, coordinator).

Modelling conventions:

* Python floats are modelled as rationals.  The IEEE-754 single-precision
  fields of the binary table format (membrane potential, threshold, leak
  rate) are modelled by their 32-bit patterns: struct.pack stores a pattern
  and struct.unpack recovers exactly the same pattern, so equality of
  patterns is exactly equality of the stored floats.
* Byte strings are lists of naturals, each element below 256.
* A Python struct.error raised by an out-of-bounds unpack_from is modelled
  by Option.none; code paths that cannot raise are total.
* math.exp appears only inside the STDP delta computation of _apply_stdp;
  those functions take the already-computed delta (or an explicit function
  standing for math.exp), which is exactly the boundary of _update_weight
  in the source.
-/

namespace Z1

/-- Python int(x) applied to a rational: truncation toward zero. -/
def pyTrunc (q : ℚ) : ℤ := if 0 ≤ q then ⌊q⌋ else -⌊-q⌋

/-- Python (w & 0xFF) on an arbitrary (possibly negative) int: Python
bitwise AND against 255 is the mathematical remainder modulo 256. -/
def pyAnd255 (w : ℤ) : ℕ := (w % 256).toNat

/-- Weight quantization of snn_compiler.py line 219: weight = int(weight_float * 255). -/
def quantizeWeight (w : ℚ) : ℤ := pyTrunc (w * 255)

/-- Weight decoding of snn_engine.py lines 112-118 (load_from_parsed_neurons):
bytes 128-255 decode to -(b-128)/63.5, bytes 0-127 decode to b/63.5. -/
def decodeWeightSigned (weightInt : ℕ) : ℚ :=
  if 128 ≤ weightInt then -(((weightInt : ℚ) - 128) / 63.5)
  else (weightInt : ℚ) / 63.5

/-- Synapse slot packing of snn_compiler.py line 295:
synapse_value = ((source_id & 0xFFFFFF) << 8) | (weight & 0xFF). -/
def packSynapseValue (sourceId : ℕ) (weight : ℤ) : ℕ :=
  ((sourceId &&& 0xFFFFFF) <<< 8) ||| pyAnd255 weight

/-- Little-endian encoding of a 16-bit field (struct format <H). -/
def le16 (n : ℕ) : List ℕ := [n % 256, n / 256 % 256]

/-- Little-endian encoding of a 32-bit field (struct format <I, and <f via
its bit pattern). -/
def le32 (n : ℕ) : List ℕ :=
  [n % 256, n / 256 % 256, n / 65536 % 256, n / 16777216 % 256]

/-- Little-endian decoding of a 16-bit field from its two bytes. -/
def dec16 (b0 b1 : ℕ) : ℕ := b0 + 256 * b1

/-- Little-endian decoding of a 32-bit field from its four bytes. -/
def dec32 (b0 b1 b2 b3 : ℕ) : ℕ := b0 + 256 * b1 + 65536 * b2 + 16777216 * b3

/-- Reading a 32-bit little-endian field at a byte offset; none when the
buffer is too short (struct.error). -/
def readU32 (l : List ℕ) (off : ℕ) : Option ℕ :=
  match l.drop off with
  | b0 :: b1 :: b2 :: b3 :: _ => some (b0 + 256 * b1 + 65536 * b2 + 16777216 * b3)
  | _ => none

/-- A neuron record as produced by the compiler, just before packing
(snn_compiler.py NeuronConfig): synapses hold the already-quantized integer
weight, as appended by _generate_fully_connected. -/
structure CompiledNeuron where
  neuronId : ℕ
  flags : ℕ
  thresholdBits : ℕ
  leakRateBits : ℕ
  refractoryPeriodUs : ℕ
  synapses : List (ℕ × ℤ)
deriving Repr, DecidableEq

/-- Synapse slot region of a packed entry: the first min(count, 60) synapses
in order at 4 bytes each, the rest of the 216 bytes left zero (the entry is a
pre-zeroed bytearray(256) and the region starts at offset 40). -/
def synRegion (ss : List (ℕ × ℤ)) : List ℕ :=
  ((ss.take 60).map (fun p => le32 (packSynapseValue p.1 p.2))).flatten ++
    List.replicate (216 - 4 * min ss.length 60) 0

/-- Packing of one 256-byte neuron entry, snn_compiler.py _pack_neuron_entry:
id, flags, initial membrane potential 0.0, threshold, last spike time 0,
synapse count, capacity 60, reserved, leak rate, refractory period, 8 reserved
bytes, then the synapse slots. -/
def packNeuronEntry (c : CompiledNeuron) : List ℕ :=
  le16 c.neuronId ++ le16 c.flags ++ le32 0 ++ le32 c.thresholdBits ++ le32 0 ++
  le16 c.synapses.length ++ le16 60 ++ le32 0 ++ le32 c.leakRateBits ++
  le32 c.refractoryPeriodUs ++ List.replicate 8 0 ++ synRegion c.synapses

/-- STDP learning configuration (snn_engine_stdp.py STDPConfig). -/
structure STDPConfig where
  enabled : Bool
  learningRatePlus : ℚ
  learningRateMinus : ℚ
  tauPlus : ℚ
  tauMinus : ℚ
  wMin : ℚ
  wMax : ℚ
  maxDeltaT : ℕ
deriving Repr, DecidableEq

/-- Default STDPConfig(enabled=False) used when an engine is built without one. -/
def STDPConfig.default : STDPConfig :=
  { enabled := false, learningRatePlus := 0.01, learningRateMinus := 0.01,
    tauPlus := 20000, tauMinus := 20000, wMin := 0, wMax := 1,
    maxDeltaT := 100000 }

/-- Synapse of the STDP engine (snn_engine_stdp.py Synapse). -/
structure SynapseSTDP where
  sourceNeuronGlobalId : ℕ
  weight : ℚ
  delayUs : ℕ
  minWeight : ℚ
  maxWeight : ℚ
  lastUpdateTimeUs : ℕ
deriving Repr, DecidableEq

/-- One parsed 256-byte entry of the binary neuron table, as read by
snn_engine_stdp.py load_neurons_from_table lines 143-179.  Float fields are
kept as the 32-bit patterns the loader unpacked. -/
structure ParsedNeuron where
  neuronId : ℕ
  flags : ℕ
  membranePotentialBits : ℕ
  thresholdBits : ℕ
  lastSpikeTimeUs : ℕ
  synapseCount : ℕ
  synapseCapacity : ℕ
  leakRateBits : ℕ
  refractoryPeriodUs : ℕ
  synapses : List SynapseSTDP
deriving Repr, DecidableEq

/-- Loader synapse construction, snn_engine_stdp.py lines 165-177:
source_id = (value >> 8) & 0xFFFFFF, weight = (value & 0xFF) / 255.0,
bounds from the engine STDP config. -/
def mkLoadedSynapse (cfg : STDPConfig) (v : ℕ) : SynapseSTDP :=
  { sourceNeuronGlobalId := (v >>> 8) &&& 0xFFFFFF,
    weight := ((v &&& 0xFF : ℕ) : ℚ) / 255,
    delayUs := 1000,
    minWeight := cfg.wMin,
    maxWeight := cfg.wMax,
    lastUpdateTimeUs := 0 }

/-- Loader synapse loop, snn_engine_stdp.py lines 163-177: slot j is a
32-bit read at byte offset 40 + j * 4 of the entry, that is at offset 4 * j
of the slot region starting at entry offset 40; a read past the end of the
256-byte entry slice is a struct.error (none). -/
def parseSlots (cfg : STDPConfig) (slotBytes : List ℕ) (j : ℕ) : ℕ → Option (List SynapseSTDP)
  | 0 => some []
  | count + 1 => do
    let v ← readU32 slotBytes (4 * j)
    let rest ← parseSlots cfg slotBytes (j + 1) count
    some (mkLoadedSynapse cfg v :: rest)

/-- Parsing of one 256-byte entry, snn_engine_stdp.py lines 142-179.  The
named bytes are the entry offsets read by the three header unpack_from
calls: id at 0-1, flags at 2-3, membrane potential at 4-7, threshold at
8-11, last spike time at 12-15, synapse count at 16-17, capacity at 18-19,
a reserved word at 20-23, leak rate at 24-27, refractory period at 28-31;
rest holds the bytes from offset 32 on, so the slot region at entry offset
40 is rest.drop 8.  An entry shorter than the 32 header bytes is a
struct.error, exactly as for unpack_from. -/
def parseEntry (cfg : STDPConfig) (entry : List ℕ) : Option ParsedNeuron :=
  match entry with
  | i0 :: i1 :: f0 :: f1 :: v0 :: v1 :: v2 :: v3 :: t0 :: t1 :: t2 :: t3 ::
    s0 :: s1 :: s2 :: s3 :: c0 :: c1 :: p0 :: p1 :: _q0 :: _q1 :: _q2 :: _q3 ::
    l0 :: l1 :: l2 :: l3 :: u0 :: u1 :: u2 :: u3 :: rest => do
    let scount := dec16 c0 c1
    let syns ← parseSlots cfg (rest.drop 8) 0 (min scount 60)
    some { neuronId := dec16 i0 i1, flags := dec16 f0 f1,
           membranePotentialBits := dec32 v0 v1 v2 v3,
           thresholdBits := dec32 t0 t1 t2 t3,
           lastSpikeTimeUs := dec32 s0 s1 s2 s3,
           synapseCount := scount, synapseCapacity := dec16 p0 p1,
           leakRateBits := dec32 l0 l1 l2 l3,
           refractoryPeriodUs := dec32 u0 u1 u2 u3,
           synapses := syns }
  | _ => none

/-- Entry loop of load_neurons_from_table, lines 136-140: entry i is the
256-byte slice starting at offset 256 * i; the for-loop over
range(num_entries) is modelled as a structural countdown with an ascending
slice index. -/
def parseEntries (cfg : STDPConfig) (tbl : List ℕ) (i : ℕ) : ℕ → Option (List ParsedNeuron)
  | 0 => some []
  | remaining + 1 => do
    let e ← parseEntry cfg ((tbl.drop (256 * i)).take 256)
    let rest ← parseEntries cfg tbl (i + 1) remaining
    some (e :: rest)

/-- Table loading, snn_engine_stdp.py load_neurons_from_table lines 135-140:
num_entries = len(table) // 256, so any trailing bytes short of a full entry
are never looked at.  The result lists the parsed entries in table order
(the engine then keys them by neuron id). -/
def loadNeuronsFromTable (cfg : STDPConfig) (tbl : List ℕ) : Option (List ParsedNeuron) :=
  parseEntries cfg tbl 0 (tbl.length / 256)

/-! ### The plain (non-STDP) engine, src/emulator/core/snn_engine.py -/

/-- Spike event (snn_engine.py Spike). -/
structure Spike where
  neuronId : ℕ
  sourceNode : ℕ
  sourceBackplane : ℕ
  timestampUs : ℕ
  value : ℚ
deriving Repr, DecidableEq

/-- LIF neuron state (snn_engine.py Neuron). -/
structure Neuron where
  neuronId : ℕ
  membranePotential : ℚ
  threshold : ℚ
  leakRate : ℚ
  refractoryPeriodUs : ℕ
  lastSpikeTimeUs : ℕ
  synapseCount : ℕ
  flags : ℕ
deriving Repr, DecidableEq

/-- Synapse connection (snn_engine.py Synapse). -/
structure Synapse where
  sourceNeuronGlobalId : ℕ
  weight : ℚ
  delayUs : ℕ
deriving Repr, DecidableEq

/-- Engine statistics counters (snn_engine.py self.stats). -/
structure EngineStats where
  totalSpikesReceived : ℕ
  totalSpikesSent : ℕ
  neuronsSpiked : ℕ
  simulationSteps : ℕ
deriving Repr, DecidableEq

def EngineStats.zero : EngineStats :=
  { totalSpikesReceived := 0, totalSpikesSent := 0, neuronsSpiked := 0,
    simulationSteps := 0 }

/-- Association-list lookup modelling a Python dict read (first binding of the
key; dicts keep keys unique so the first binding is the binding). -/
def lookupAssoc {α : Type} (l : List (ℕ × α)) (k : ℕ) : Option α :=
  match l with
  | [] => none
  | (k2, v) :: rest => if k2 = k then some v else lookupAssoc rest k

/-- Association-list update modelling a Python dict write: replace the first
binding of the key in place, append when absent. -/
def insertAssoc {α : Type} (l : List (ℕ × α)) (k : ℕ) (v : α) : List (ℕ × α) :=
  match l with
  | [] => [(k, v)]
  | (k2, v2) :: rest =>
    if k2 = k then (k2, v) :: rest else (k2, v2) :: insertAssoc rest k v

/-- State of one plain SNN engine (snn_engine.py SNNEngine).  The neuron and
synapse dicts are insertion-ordered association lists, as Python dicts are.
The spike callback (only set by the coordinator) is not part of the state;
the engine is modelled stand-alone, with its outgoing queue drained by the
routing loop. -/
structure Engine where
  nodeId : ℕ
  backplaneId : ℕ
  neurons : List (ℕ × Neuron)
  synapses : List (ℕ × List Synapse)
  incomingSpikes : List Spike
  outgoingSpikes : List Spike
  currentTimeUs : ℕ
  timestepUs : ℕ
  stats : EngineStats
deriving Repr, DecidableEq

/-- Fresh engine as built by SNNEngine.__init__. -/
def Engine.init (nodeId backplaneId : ℕ) : Engine :=
  { nodeId := nodeId, backplaneId := backplaneId, neurons := [], synapses := [],
    incomingSpikes := [], outgoingSpikes := [], currentTimeUs := 0,
    timestepUs := 1000, stats := EngineStats.zero }

/-- Outgoing spike creation of snn_engine.py _generate_spike lines 252-278:
reset the potential, stamp the fire time, append the spike, bump the sent
and spiked counters.  Returns the fired neuron and the engine with the
queue and statistics updated (the caller stores the neuron back). -/
def generateSpike (e : Engine) (n : Neuron) : Neuron × Engine :=
  let fired := { n with membranePotential := 0, lastSpikeTimeUs := e.currentTimeUs }
  let sp : Spike := { neuronId := n.neuronId, sourceNode := e.nodeId,
                      sourceBackplane := e.backplaneId,
                      timestampUs := e.currentTimeUs, value := 1 }
  (fired,
   { e with outgoingSpikes := e.outgoingSpikes ++ [sp],
            stats := { e.stats with
                        totalSpikesSent := e.stats.totalSpikesSent + 1,
                        neuronsSpiked := e.stats.neuronsSpiked + 1 } })

/-- External spike injection, snn_engine.py inject_spike lines 129-159:
count the reception, drop unknown neuron ids, fire a neuron with no
synapse list (or an empty one) directly, otherwise add the value to the
membrane potential and fire on reaching threshold. -/
def injectSpike (e : Engine) (neuronId : ℕ) (value : ℚ) : Engine :=
  let e := { e with stats := { e.stats with
              totalSpikesReceived := e.stats.totalSpikesReceived + 1 } }
  match lookupAssoc e.neurons neuronId with
  | none => e
  | some n =>
    match lookupAssoc e.synapses neuronId with
    | none | some [] =>
      let (fired, e2) := generateSpike e n
      { e2 with neurons := insertAssoc e2.neurons neuronId fired }
    | some _ =>
      let n2 := { n with membranePotential := n.membranePotential + value }
      if n2.threshold ≤ n2.membranePotential then
        let (fired, e2) := generateSpike e n2
        { e2 with neurons := insertAssoc e2.neurons neuronId fired }
      else
        { e with neurons := insertAssoc e.neurons neuronId n2 }

/-- Presynaptic global id computed while draining a spike, snn_engine.py
lines 216-219: (source_node << 16) | neuron_id, masked to 24 bits. -/
def spikeGlobalId (sp : Spike) : ℕ :=
  ((sp.sourceNode <<< 16) ||| sp.neuronId) &&& 0xFFFFFF

/-- Synapse match test of snn_engine.py line 236: the stored source id is
compared against the packed 24-bit spike id. -/
def synapseMatches (sp : Spike) (s : Synapse) : Bool :=
  s.sourceNeuronGlobalId = spikeGlobalId sp

/-- Inner synapse walk of snn_engine.py lines 235-247: every matching synapse
adds weight * value to the membrane potential; as soon as the potential
reaches threshold the walk stops with the fired flag set (the source fires
and breaks out of the loop). -/
def applySynapses (sp : Spike) (n : Neuron) : List Synapse → Neuron × Bool
  | [] => (n, false)
  | s :: rest =>
    if synapseMatches sp s then
      let n2 := { n with membranePotential := n.membranePotential + s.weight * sp.value }
      if n2.threshold ≤ n2.membranePotential then (n2, true)
      else applySynapses sp n2 rest
    else applySynapses sp n rest

/-- Processing of one target entry of the synapse dict during a spike drain,
snn_engine.py lines 225-247: skip targets with no neuron record, skip targets
inside their refractory window (the time difference is Python int
subtraction, hence computed in ℤ), otherwise walk the synapse list and fire
on threshold. -/
def processTarget (sp : Spike) (e : Engine) (entry : ℕ × List Synapse) : Engine :=
  match lookupAssoc e.neurons entry.1 with
  | none => e
  | some n =>
    if (e.currentTimeUs : ℤ) - (n.lastSpikeTimeUs : ℤ) < (n.refractoryPeriodUs : ℤ) then
      e
    else
      let r := applySynapses sp n entry.2
      if r.2 then
        let (fired, e2) := generateSpike e r.1
        { e2 with neurons := insertAssoc e2.neurons entry.1 fired }
      else
        { e with neurons := insertAssoc e.neurons entry.1 r.1 }

/-- Processing of one incoming spike, snn_engine.py _process_spike: the
synapse dict is scanned in insertion order. -/
def processSpike (e : Engine) (sp : Spike) : Engine :=
  e.synapses.foldl (processTarget sp) e

/-- Leak pass of snn_engine.py lines 202-205: every neuron with positive
potential is multiplied by its leak rate (no firing in this engine). -/
def leakPass (e : Engine) : Engine :=
  { e with neurons := e.neurons.map (fun p =>
      if 0 < p.2.membranePotential then
        (p.1, { p.2 with membranePotential := p.2.membranePotential * p.2.leakRate })
      else p) }

/-- One simulation step, snn_engine.py _simulation_step lines 192-205:
advance time, count the step, drain the whole incoming queue through
_process_spike, then run the leak pass.  Processing never enqueues new
incoming spikes, so the drain is a fold over the queue contents. -/
def simulationStep (e : Engine) : Engine :=
  let e1 := { e with
    stats := { e.stats with simulationSteps := e.stats.simulationSteps + 1 },
    currentTimeUs := e.currentTimeUs + e.timestepUs }
  let e2 := e1.incomingSpikes.foldl processSpike { e1 with incomingSpikes := [] }
  leakPass e2

/-- Cluster coordinator of snn_engine.py (ClusterSNNCoordinator): a dict of
engines keyed by (backplane_id, node_id).  Keys are encoded as pairs. -/
structure Coordinator where
  engines : List ((ℕ × ℕ) × Engine)
deriving Repr, DecidableEq

/-- Dict lookup keyed by an engine key pair. -/
def lookupKey {α : Type} (l : List ((ℕ × ℕ) × α)) (key : ℕ × ℕ) : Option α :=
  match l with
  | [] => none
  | (k, v) :: rest => if k = key then some v else lookupKey rest key

/-- Dict write keyed by an engine key pair: replace the first binding in
place, append when absent (Python dict assignment). -/
def insertKeyed {α : Type} (l : List ((ℕ × ℕ) × α)) (key : ℕ × ℕ) (v : α) :
    List ((ℕ × ℕ) × α) :=
  match l with
  | [] => [(key, v)]
  | (k, v2) :: rest =>
    if k = key then (k, v) :: rest else (k, v2) :: insertKeyed rest key v

def lookupEngine (c : Coordinator) (key : ℕ × ℕ) : Option Engine :=
  lookupKey c.engines key

/-- Engine registration, snn_engine.py lines 319-325: the dict write
self.engines[key] = engine, which silently replaces any engine already
registered under the key. -/
def registerEngine (c : Coordinator) (e : Engine) : Coordinator :=
  { engines := insertKeyed c.engines (e.backplaneId, e.nodeId) e }

/-- Coordinator spike injection, snn_engine.py lines 355-360: look the engine
up and forward; the method returns None (no count), and an unknown key is a
silent no-op. -/
def coordinatorInjectSpike (c : Coordinator) (backplaneId nodeId neuronId : ℕ)
    (value : ℚ) : Coordinator :=
  match lookupEngine c (backplaneId, nodeId) with
  | none => c
  | some e =>
    { engines := insertKeyed c.engines (backplaneId, nodeId) (injectSpike e neuronId value) }

/-! ### The STDP engine, src/emulator/core/snn_engine_stdp.py

Functions that can raise a Python KeyError (direct dict indexing) are
Option-valued; math.exp is passed in as an explicit function expQ, which is
only ever applied inside the STDP delta computation of _apply_stdp and
_decay_traces, exactly where the source calls math.exp. -/

/-- LIF neuron with STDP traces (snn_engine_stdp.py Neuron). -/
structure NeuronSTDP where
  neuronId : ℕ
  membranePotential : ℚ
  threshold : ℚ
  leakRate : ℚ
  refractoryPeriodUs : ℕ
  lastSpikeTimeUs : ℕ
  synapseCount : ℕ
  flags : ℕ
  preTrace : ℚ
  postTrace : ℚ
deriving Repr, DecidableEq

/-- Statistics counters of the STDP engine. -/
structure StatsSTDP where
  totalSpikesReceived : ℕ
  totalSpikesSent : ℕ
  neuronsSpiked : ℕ
  simulationSteps : ℕ
  stdpUpdates : ℕ
  weightIncreases : ℕ
  weightDecreases : ℕ
deriving Repr, DecidableEq

def StatsSTDP.zero : StatsSTDP := ⟨0, 0, 0, 0, 0, 0, 0⟩

/-- State of one STDP engine (snn_engine_stdp.py SNNEngineSTDP).  The spike
history deques (maxlen 100) are per-neuron lists of timestamps. -/
structure EngineSTDP where
  nodeId : ℕ
  backplaneId : ℕ
  cfg : STDPConfig
  neurons : List (ℕ × NeuronSTDP)
  synapses : List (ℕ × List SynapseSTDP)
  incomingSpikes : List Spike
  outgoingSpikes : List Spike
  spikeHistory : List (ℕ × List ℕ)
  currentTimeUs : ℕ
  timestepUs : ℕ
  stats : StatsSTDP
deriving Repr, DecidableEq

/-- Append to a deque with maxlen 100: when full the oldest entry is evicted. -/
def pushHistory (l : List ℕ) (t : ℕ) : List ℕ :=
  if l.length < 100 then l ++ [t] else l.drop 1 ++ [t]

/-- Weight update with bounds clamping, snn_engine_stdp.py _update_weight
lines 371-381: weight := max(min_weight, min(max_weight, weight + delta)),
and the update time is recorded. -/
def updateWeight (now : ℕ) (syn : SynapseSTDP) (deltaW : ℚ) : SynapseSTDP :=
  { syn with
      weight := max syn.minWeight (min syn.maxWeight (syn.weight + deltaW)),
      lastUpdateTimeUs := now }

/-- Statistics bump of _update_weight lines 383-387. -/
def bumpUpdateStats (st : StatsSTDP) (deltaW : ℚ) : StatsSTDP :=
  let st := { st with stdpUpdates := st.stdpUpdates + 1 }
  if 0 < deltaW then { st with weightIncreases := st.weightIncreases + 1 }
  else { st with weightDecreases := st.weightDecreases + 1 }

/-- Scan of a spike-history deque in reverse order for the nearest spike
inside the STDP window, snn_engine_stdp.py lines 353-359 and 363-369:
the first time t (from the most recent end) with 0 < tRef - t <= maxDeltaT,
returning that time difference. -/
def firstWindowDelta (maxDeltaT : ℕ) (tRef : ℕ) (times : List ℕ) : Option ℤ :=
  times.reverse.findSome? (fun t =>
    let d : ℤ := (tRef : ℤ) - (t : ℤ)
    if 0 < d ∧ d ≤ (maxDeltaT : ℤ) then some d else none)

/-- STDP pairing rule, snn_engine_stdp.py _apply_stdp lines 328-369, at the
synapse whose postsynaptic neuron id is nid.  Returns the updated synapse
and the engine with updated statistics; the caller stores the synapse back. -/
def applySTDP (expQ : ℚ → ℚ) (e : EngineSTDP) (nid : ℕ) (syn : SynapseSTDP)
    (isPreSpike : Bool) : SynapseSTDP × EngineSTDP :=
  match lookupAssoc e.spikeHistory syn.sourceNeuronGlobalId with
  | none => (syn, e)
  | some _ =>
    let preSpikes := (lookupAssoc e.spikeHistory syn.sourceNeuronGlobalId).getD []
    let postSpikes := (lookupAssoc e.spikeHistory nid).getD []
    if preSpikes = [] ∨ postSpikes = [] then (syn, e)
    else
      let commit := fun (deltaW : ℚ) =>
        (updateWeight e.currentTimeUs syn deltaW,
         { e with stats := bumpUpdateStats e.stats deltaW })
      if isPreSpike then
        match preSpikes.getLast? with
        | none => (syn, e)
        | some tPre =>
          match firstWindowDelta e.cfg.maxDeltaT tPre postSpikes with
          | none => (syn, e)
          | some d => commit (-e.cfg.learningRateMinus * expQ (-(d : ℚ) / e.cfg.tauMinus))
      else
        match postSpikes.getLast? with
        | none => (syn, e)
        | some tPost =>
          match firstWindowDelta e.cfg.maxDeltaT tPost preSpikes with
          | none => (syn, e)
          | some d => commit (e.cfg.learningRatePlus * expQ (-(d : ℚ) / e.cfg.tauPlus))

/-- Neuron firing, snn_engine_stdp.py _fire_neuron lines 287-326: stamp the
fire time, append it to the spike history (a KeyError when the neuron has no
history deque), reset the potential, bump the postsynaptic trace when STDP is
on, enqueue the outgoing spike, count it, and run the post-side STDP loop
over the incoming synapses.  The neuron is written back under its own id
(the loader keys the dicts by neuron id). -/
def fireNeuron (expQ : ℚ → ℚ) (e : EngineSTDP) (n : NeuronSTDP) : Option EngineSTDP :=
  let n := { n with lastSpikeTimeUs := e.currentTimeUs }
  match lookupAssoc e.spikeHistory n.neuronId with
  | none => none
  | some hist =>
    let e := { e with
      spikeHistory := insertAssoc e.spikeHistory n.neuronId (pushHistory hist e.currentTimeUs) }
    let n := { n with membranePotential := 0 }
    let n := if e.cfg.enabled then { n with postTrace := n.postTrace + 1 } else n
    let sp : Spike := { neuronId := n.neuronId, sourceNode := e.nodeId,
                        sourceBackplane := e.backplaneId,
                        timestampUs := e.currentTimeUs, value := 1 }
    let e := { e with outgoingSpikes := e.outgoingSpikes ++ [sp],
                      stats := { e.stats with
                        totalSpikesSent := e.stats.totalSpikesSent + 1,
                        neuronsSpiked := e.stats.neuronsSpiked + 1 } }
    let e :=
      if e.cfg.enabled then
        match lookupAssoc e.synapses n.neuronId with
        | none => e
        | some syns =>
          let r := syns.foldl (fun (acc : List SynapseSTDP × EngineSTDP) syn =>
            let (syn2, e2) := applySTDP expQ acc.2 n.neuronId syn false
            (acc.1 ++ [syn2], e2)) ([], e)
          { r.2 with synapses := insertAssoc r.2.synapses n.neuronId r.1 }
      else e
    some { e with neurons := insertAssoc e.neurons n.neuronId n }

/-- Synapse walk for one target during the STDP drain, snn_engine_stdp.py
lines 274-285: the spike source identifier compared against each stored
source id is the bare spike.neuron_id (held in the engine argument by the
caller); every matching synapse adds weight * value and, when STDP is on,
takes a presynaptic-side STDP update. -/
def stdpApplyToTarget (expQ : ℚ → ℚ) (sourceId : ℕ) (value : ℚ)
    (nid : ℕ) : List SynapseSTDP → NeuronSTDP → EngineSTDP →
    List SynapseSTDP × NeuronSTDP × EngineSTDP
  | [], n, e => ([], n, e)
  | syn :: rest, n, e =>
    if syn.sourceNeuronGlobalId = sourceId then
      let n2 := { n with membranePotential := n.membranePotential + syn.weight * value }
      let (syn2, e2) :=
        if e.cfg.enabled then applySTDP expQ e nid syn true else (syn, e)
      let (rest2, n3, e3) := stdpApplyToTarget expQ sourceId value nid rest n2 e2
      (syn2 :: rest2, n3, e3)
    else
      let (rest2, n3, e3) := stdpApplyToTarget expQ sourceId value nid rest n e
      (syn :: rest2, n3, e3)

/-- Processing of one incoming spike by the STDP engine, snn_engine_stdp.py
_process_spike lines 247-285: the presynaptic identifier is the bare
spike.neuron_id (source_id = spike.neuron_id, no node packing); record it in
the history when known; a local neuron with synapse_count 0 is an input
neuron and fires directly; otherwise every target entry of the synapse dict
is walked (a missing neuron record for a listed target is a KeyError).
No threshold test happens here: integration only. -/
def processSpikeSTDP (expQ : ℚ → ℚ) (e : EngineSTDP) (sp : Spike) : Option EngineSTDP :=
  let sourceId := sp.neuronId
  let e :=
    match lookupAssoc e.spikeHistory sourceId with
    | none => e
    | some hist => { e with
        spikeHistory := insertAssoc e.spikeHistory sourceId (pushHistory hist e.currentTimeUs) }
  let direct :=
    match lookupAssoc e.neurons sourceId with
    | some n => if n.synapseCount = 0 then some n else none
    | none => none
  match direct with
  | some n => fireNeuron expQ e n
  | none =>
    e.synapses.foldlM (fun (acc : EngineSTDP) entry => do
      match lookupAssoc acc.neurons entry.1 with
      | none => none
      | some n =>
        let syns := (lookupAssoc acc.synapses entry.1).getD entry.2
        let (syns2, n2, e2) := stdpApplyToTarget expQ sourceId sp.value entry.1 syns n acc
        some { e2 with neurons := insertAssoc e2.neurons entry.1 n2,
                       synapses := insertAssoc e2.synapses entry.1 syns2 }) e

/-- Engine-level spike injection of the STDP engine, snn_engine_stdp.py
inject_spike lines 197-215: build a Spike stamped with the engine's own node
and time, enqueue it on the incoming queue, count the reception.  No
existence check of the neuron id happens here. -/
def injectSpikeSTDP (e : EngineSTDP) (neuronId : ℕ) (value : ℚ) : EngineSTDP :=
  let sp : Spike := { neuronId := neuronId, sourceNode := e.nodeId,
                      sourceBackplane := e.backplaneId,
                      timestampUs := e.currentTimeUs, value := value }
  { e with incomingSpikes := e.incomingSpikes ++ [sp],
           stats := { e.stats with
             totalSpikesReceived := e.stats.totalSpikesReceived + 1 } }

/-- Refractory test of snn_engine_stdp.py line 237 (Python int subtraction). -/
def EngineSTDP.refractoryElapsed (e : EngineSTDP) (n : NeuronSTDP) : Prop :=
  (n.refractoryPeriodUs : ℤ) ≤ (e.currentTimeUs : ℤ) - (n.lastSpikeTimeUs : ℤ)

instance (e : EngineSTDP) (n : NeuronSTDP) : Decidable (e.refractoryElapsed n) := by
  unfold EngineSTDP.refractoryElapsed
  infer_instance

/-- Leak-and-fire pass of the STDP loop, snn_engine_stdp.py lines 230-238:
each neuron with positive potential leaks multiplicatively and then fires if
it still reaches threshold and is out of its refractory window. -/
def leakFirePass (expQ : ℚ → ℚ) (e : EngineSTDP) : Option EngineSTDP :=
  (e.neurons.map Prod.fst).foldlM (fun (acc : EngineSTDP) nid => do
    match lookupAssoc acc.neurons nid with
    | none => some acc
    | some n =>
      if 0 < n.membranePotential then
        let n2 := { n with membranePotential := n.membranePotential * n.leakRate }
        let acc2 := { acc with neurons := insertAssoc acc.neurons nid n2 }
        if n2.threshold ≤ n2.membranePotential ∧
            (acc.refractoryElapsed n2) then
          fireNeuron expQ acc2 n2
        else
          some acc2
      else some acc) e

/-- Trace decay, snn_engine_stdp.py _decay_traces lines 391-398. -/
def decayTraces (expQ : ℚ → ℚ) (e : EngineSTDP) : EngineSTDP :=
  let decayPre := expQ (-(e.timestepUs : ℚ) / e.cfg.tauPlus)
  let decayPost := expQ (-(e.timestepUs : ℚ) / e.cfg.tauMinus)
  { e with neurons := e.neurons.map (fun p =>
      (p.1, { p.2 with preTrace := p.2.preTrace * decayPre,
                       postTrace := p.2.postTrace * decayPost })) }

/-- One iteration of the STDP simulation loop, snn_engine_stdp.py lines
219-245: advance time, count the step, drain the incoming queue, run the
leak-and-fire pass, decay traces when STDP is on. -/
def simulationStepSTDP (expQ : ℚ → ℚ) (e : EngineSTDP) : Option EngineSTDP := do
  let e1 := { e with
    currentTimeUs := e.currentTimeUs + e.timestepUs,
    stats := { e.stats with simulationSteps := e.stats.simulationSteps + 1 } }
  let e2 ← e1.incomingSpikes.foldlM (processSpikeSTDP expQ)
    { e1 with incomingSpikes := [] }
  let e3 ← leakFirePass expQ e2
  some (if e3.cfg.enabled then decayTraces expQ e3 else e3)

/-- Cluster coordinator of snn_engine_stdp.py (ClusterSNNCoordinator). -/
structure CoordinatorSTDP where
  engines : List ((ℕ × ℕ) × EngineSTDP)
deriving Repr, DecidableEq

/-- Engine registration, snn_engine_stdp.py lines 457-460: the dict write
self.engines[key] = engine, silently replacing any previous engine under
the same (backplane_id, node_id) key. -/
def registerEngineSTDP (c : CoordinatorSTDP) (e : EngineSTDP) : CoordinatorSTDP :=
  { engines := insertKeyed c.engines (e.backplaneId, e.nodeId) e }

/-- Coordinator spike injection, snn_engine_stdp.py lines 486-492: when the
(backplane_id, node_id) key is registered, forward to that engine and return
1; otherwise return 0 and touch nothing. -/
def coordinatorInjectSpikeSTDP (c : CoordinatorSTDP) (neuronId backplaneId nodeId : ℕ)
    (value : ℚ) : ℕ × CoordinatorSTDP :=
  match lookupKey c.engines (backplaneId, nodeId) with
  | none => (0, c)
  | some e =>
    (1,
     { engines := insertKeyed c.engines (backplaneId, nodeId)
        (injectSpikeSTDP e neuronId value) })

/-! ### The topology compiler, src/python_tools/lib/snn_compiler.py

Layer float parameters (threshold, leak rate) are carried as their IEEE-754
single-precision bit patterns, which is what struct.pack stores; synapse
weights, which pass through arithmetic before quantization, are rationals.
The seeded RNG is abstracted as a sample function: sample t s is the RNG
draw consumed for the pair (t-th target row, s-th source) of a connection;
constant initialization never consults it.  All connections modelled here
are fully_connected (the only kind any claim exercises); a malformed
topology (missing layer, unassigned neuron), which raises in the source, is
Option.none. -/

inductive LayerType | input | hidden | output
deriving Repr, DecidableEq

/-- Weight initialization modes of _generate_fully_connected lines 206-216. -/
inductive WeightInit
  | randomNormal (mean stddev : ℚ)
  | randomUniform (weightMin weightMax : ℚ)
  | constant (value : ℚ)
  | unknownInit
deriving Repr, DecidableEq

/-- Weight generation for one source-target pair, snn_compiler.py lines
206-216: a gauss sample is clamped to [0, 1]; a uniform sample and a
constant value are used as-is (no clamping); an unknown mode yields 0.5. -/
def genWeightFloat : WeightInit → ℚ → ℚ
  | WeightInit.randomNormal _ _, d => max 0 (min 1 d)
  | WeightInit.randomUniform _ _, d => d
  | WeightInit.constant v, _ => v
  | WeightInit.unknownInit, _ => 0.5

structure Layer where
  layerId : ℕ
  layerType : LayerType
  neuronStart : ℕ
  neuronEnd : ℕ
  thresholdBits : ℕ
  leakRateBits : ℕ
  refractoryPeriodUs : ℕ
deriving Repr, DecidableEq

structure Connection where
  sourceLayer : ℕ
  targetLayer : ℕ
  weightInit : WeightInit
deriving Repr, DecidableEq

structure Topology where
  neuronCount : ℕ
  layers : List Layer
  connections : List Connection
  nodes : List ℕ
deriving Repr, DecidableEq

/-- Compiler-internal neuron record (snn_compiler.py NeuronConfig): local id,
global id, owning node, flags, layer parameters and the accumulated
synapse list of (source_global_id, quantized_weight) pairs. -/
structure NeuronCfg where
  neuronId : ℕ
  globalId : ℕ
  nodeId : ℕ
  flags : ℕ
  thresholdBits : ℕ
  leakRateBits : ℕ
  refractoryPeriodUs : ℕ
  synapses : List (ℕ × ℤ)
deriving Repr, DecidableEq

/-- Balanced node assignment, snn_compiler.py lines 74-92: each node in list
order takes neuron_count / len(nodes) consecutive global ids, then the
remainder is dealt round-robin from the head of the node list. -/
def assignBalanced (total : ℕ) (nodes : List ℕ) : List (ℕ × List ℕ) :=
  let npp := total / nodes.length
  let r := total - npp * nodes.length
  nodes.enum.map (fun p =>
    (p.2, (((List.range npp).map (fun i => p.1 * npp + i)).filter (· < total)) ++
          (if p.1 < r then [npp * nodes.length + p.1] else [])))

/-- Node search of _find_node_for_neuron lines 154-159: first assignment
entry whose neuron list contains the global id. -/
def findNodeFor (assigns : List (ℕ × List ℕ)) (gid : ℕ) : Option ℕ :=
  assigns.findSome? (fun p => if gid ∈ p.2 then some p.1 else none)

/-- Layer flags of _build_neuron_configs lines 122-127: ACTIVE plus
INPUT (0x4) or OUTPUT (0x8). -/
def layerFlags : LayerType → ℕ
  | LayerType.input => 0x0001 ||| 0x0004
  | LayerType.output => 0x0001 ||| 0x0008
  | LayerType.hidden => 0x0001

/-- Neuron config construction, _build_neuron_configs lines 112-152: one
config per global id of each layer, in layer order; the local id is the
position of the global id in its node's assignment list. -/
def buildNeuronConfigs (t : Topology) (assigns : List (ℕ × List ℕ)) :
    Option (List NeuronCfg) :=
  t.layers.foldlM (fun (acc : List NeuronCfg) (l : Layer) => do
    let layerCfgs ←
      ((List.range (l.neuronEnd + 1 - l.neuronStart)).map (l.neuronStart + ·)).mapM
        (fun gid => do
          let nodeId ← findNodeFor assigns gid
          let localIds := (lookupAssoc assigns nodeId).getD []
          some ({ neuronId := localIds.indexOf gid, globalId := gid, nodeId := nodeId,
                  flags := layerFlags l.layerType, thresholdBits := l.thresholdBits,
                  leakRateBits := l.leakRateBits,
                  refractoryPeriodUs := l.refractoryPeriodUs,
                  synapses := [] } : NeuronCfg))
    some (acc ++ layerCfgs)) []

/-- Capped synapse append of lines 221-223 and 243-245: candidates for a
target that already has 60 synapses are silently dropped. -/
def appendCapped (syns : List (ℕ × ℤ)) (s : ℕ × ℤ) : List (ℕ × ℤ) :=
  if syns.length < 60 then syns ++ [s] else syns

/-- Update of the first neuron config with the given global id (the
generator looks targets up with next(n for n in self.neurons if ...)). -/
def updateFirstCfg (gid : ℕ) (f : NeuronCfg → NeuronCfg) :
    List NeuronCfg → List NeuronCfg
  | [] => []
  | n :: rest =>
    if n.globalId = gid then f n :: rest else n :: updateFirstCfg gid f rest

/-- Fully-connected generation, snn_compiler.py _generate_fully_connected
lines 193-223: for every target of the target range, every source of the
source range in ascending order contributes one synapse
(source_global_id, int(weight_float * 255)), subject to the 60-synapse cap. -/
def generateFullyConnected (sample : ℕ → ℕ → ℚ) (init : WeightInit)
    (ss se ts te : ℕ) (neurons : List NeuronCfg) : List NeuronCfg :=
  (List.range (te + 1 - ts)).foldl (fun acc ti =>
    updateFirstCfg (ts + ti) (fun n =>
      { n with synapses :=
          (List.range (se + 1 - ss)).foldl (fun syns si =>
            appendCapped syns
              (ss + si, quantizeWeight (genWeightFloat init (sample ti si)))) n.synapses })
      acc) neurons

/-- Connection generation, _generate_connections lines 161-191: connections
are processed in declaration order; the layer ranges come from the first
layer with the matching id (missing layers raise in the source). -/
def generateConnections (t : Topology) (sample : ℕ → ℕ → ℚ)
    (neurons : List NeuronCfg) : Option (List NeuronCfg) :=
  t.connections.foldlM (fun acc conn => do
    let src ← t.layers.find? (fun l => l.layerId = conn.sourceLayer)
    let tgt ← t.layers.find? (fun l => l.layerId = conn.targetLayer)
    some (generateFullyConnected sample conn.weightInit
      src.neuronStart src.neuronEnd tgt.neuronStart tgt.neuronEnd acc)) neurons

/-- View of a compiler neuron record as the packing input. -/
def NeuronCfg.toCompiled (n : NeuronCfg) : CompiledNeuron :=
  { neuronId := n.neuronId, flags := n.flags, thresholdBits := n.thresholdBits,
    leakRateBits := n.leakRateBits, refractoryPeriodUs := n.refractoryPeriodUs,
    synapses := n.synapses }

/-- Table assembly, _compile_neuron_tables lines 247-265: for each node of
the assignment, in assignment order, the node's neurons sorted by local id
are packed into consecutive 256-byte entries. -/
def compileNeuronTables (assigns : List (ℕ × List ℕ)) (neurons : List NeuronCfg) :
    List (ℕ × List ℕ) :=
  assigns.map (fun p =>
    (p.1,
     (((neurons.filter (fun n => n.nodeId = p.1)).insertionSort
         (fun a b => a.neuronId ≤ b.neuronId)).map
        (fun n => packNeuronEntry n.toCompiled)).flatten))

/-- The full compilation pipeline of SNNCompiler.compile lines 45-64 with the
balanced assignment strategy: assign, build configs, generate connections,
pack the per-node tables. -/
def compileTopology (t : Topology) (sample : ℕ → ℕ → ℚ) :
    Option (List (ℕ × List ℕ)) := do
  let assigns := assignBalanced t.neuronCount t.nodes
  let cfgs ← buildNeuronConfigs t assigns
  let cfgs ← generateConnections t sample cfgs
  some (compileNeuronTables assigns cfgs)

/-! ### The parsed-neuron loader of the plain engine -/

/-- Input record of snn_engine.py load_from_parsed_neurons (a ParsedNeuron
produced by the node-side table parser, which is not part of the core
source): synapses are (source_global_id, weight_int) with the raw weight
byte, as documented by the decode comment at lines 111-118. -/
structure ParsedNeuronPy where
  neuronId : ℕ
  membranePotential : ℚ
  threshold : ℚ
  leakRate : ℚ
  refractoryPeriodUs : ℕ
  lastSpikeTime : ℕ
  synapseCount : ℕ
  flags : ℕ
  synapses : List (ℕ × ℕ)
deriving Repr, DecidableEq

/-- Loader of the plain engine, snn_engine.py load_from_parsed_neurons lines
85-127: clear both dicts, then rebuild neurons and synapses; each weight
byte is decoded with the signed /63.5 scheme of decodeWeightSigned. -/
def loadFromParsedNeurons (e : Engine) (pns : List ParsedNeuronPy) : Engine :=
  pns.foldl (fun acc pn =>
    { acc with
        neurons := insertAssoc acc.neurons pn.neuronId
          { neuronId := pn.neuronId, membranePotential := pn.membranePotential,
            threshold := pn.threshold, leakRate := pn.leakRate,
            refractoryPeriodUs := pn.refractoryPeriodUs,
            lastSpikeTimeUs := pn.lastSpikeTime,
            synapseCount := pn.synapseCount, flags := pn.flags },
        synapses := insertAssoc acc.synapses pn.neuronId
          (pn.synapses.map (fun s =>
            { sourceNeuronGlobalId := s.1, weight := decodeWeightSigned s.2,
              delayUs := 1000 })) })
    { e with neurons := [], synapses := [] }

/-! ### Round-trip infrastructure: compiled neurons with their
pre-quantization weights, and what the table loader makes of them -/

/-- A neuron as the compiler emits it, still carrying the real-valued
pre-quantization synapse weights of _generate_fully_connected (the value of
weight_float just before weight = int(weight_float * 255) at line 219). -/
structure PreQuantNeuron where
  neuronId : ℕ
  flags : ℕ
  thresholdBits : ℕ
  leakRateBits : ℕ
  refractoryPeriodUs : ℕ
  synapses : List (ℕ × ℚ)
deriving Repr, DecidableEq

/-- Quantization step applied to every emitted synapse. -/
def PreQuantNeuron.compile (sn : PreQuantNeuron) : CompiledNeuron :=
  { neuronId := sn.neuronId, flags := sn.flags, thresholdBits := sn.thresholdBits,
    leakRateBits := sn.leakRateBits, refractoryPeriodUs := sn.refractoryPeriodUs,
    synapses := sn.synapses.map (fun p => (p.1, quantizeWeight p.2)) }

/-- Concatenated table of packed entries, as one compiled node table. -/
def compiledTable (sns : List PreQuantNeuron) : List ℕ :=
  (sns.map (fun sn => packNeuronEntry sn.compile)).flatten

/-- Weight that the STDP loader reconstructs for a compiled weight: the
quantized byte divided by 255. -/
def loadedWeight (w : ℚ) : ℚ := ((pyAnd255 (quantizeWeight w) : ℕ) : ℚ) / 255

/-- The parsed entry the loader is expected to produce for a compiled
neuron: identical ids, flags, threshold, leak and refractory fields, and the
synapse list in emission order with dequantized weights. -/
def loadedNeuron (cfg : STDPConfig) (sn : PreQuantNeuron) : ParsedNeuron :=
  { neuronId := sn.neuronId, flags := sn.flags, membranePotentialBits := 0,
    thresholdBits := sn.thresholdBits, lastSpikeTimeUs := 0,
    synapseCount := sn.synapses.length, synapseCapacity := 60,
    leakRateBits := sn.leakRateBits, refractoryPeriodUs := sn.refractoryPeriodUs,
    synapses := sn.synapses.map (fun p =>
      { sourceNeuronGlobalId := p.1, weight := loadedWeight p.2, delayUs := 1000,
        minWeight := cfg.wMin, maxWeight := cfg.wMax, lastUpdateTimeUs := 0 }) }

/-- Field bounds under which struct.pack accepts the entry: 16-bit ids and
flags, 32-bit fields, at most 54 synapses (the 256-byte entry has room for
54 four-byte slots after offset 40, and pack_into raises beyond that), and
24-bit source ids (wider ids are masked by the compiler). -/
def PreQuantNeuron.wf (sn : PreQuantNeuron) : Prop :=
  sn.neuronId < 65536 ∧ sn.flags < 65536 ∧ sn.thresholdBits < 4294967296 ∧
  sn.leakRateBits < 4294967296 ∧ sn.refractoryPeriodUs < 4294967296 ∧
  sn.synapses.length ≤ 54 ∧ ∀ p ∈ sn.synapses, p.1 < 16777216

instance (sn : PreQuantNeuron) : Decidable sn.wf := by
  unfold PreQuantNeuron.wf
  infer_instance

theorem pyAnd255_lt (w : ℤ) : pyAnd255 w < 256 := by
  unfold pyAnd255
  have h1 : 0 ≤ w % 256 := Int.emod_nonneg w (by norm_num)
  have h2 : w % 256 < 256 := Int.emod_lt_of_pos w (by norm_num)
  omega

theorem packSynapseValue_eq (s : ℕ) (w : ℤ) (hs : s < 16777216) :
    packSynapseValue s w = 256 * s + pyAnd255 w := by
  unfold packSynapseValue
  have hmask : s &&& 0xFFFFFF = s := by
    have h := Nat.and_pow_two_sub_one_eq_mod s 24
    norm_num at h
    rw [h]
    exact Nat.mod_eq_of_lt hs
  have hb : pyAnd255 w < 2 ^ 8 := by
    have := pyAnd255_lt w
    norm_num
    omega
  rw [hmask, Nat.shiftLeft_eq, Nat.mul_comm]
  have h := Nat.mul_add_lt_is_or (i := 8) hb s
  norm_num at h ⊢
  omega

theorem packSynapseValue_lt (s : ℕ) (w : ℤ) : packSynapseValue s w < 4294967296 := by
  unfold packSynapseValue
  have h1 : (s &&& 0xFFFFFF) <<< 8 < 2 ^ 32 := by
    have hle : s &&& 0xFFFFFF ≤ 0xFFFFFF := Nat.and_le_right
    rw [Nat.shiftLeft_eq]
    norm_num
    omega
  have h2 : pyAnd255 w < 2 ^ 32 := by
    have := pyAnd255_lt w
    norm_num
    omega
  have := Nat.or_lt_two_pow h1 h2
  norm_num at this ⊢
  omega

theorem mkLoadedSynapse_pack (cfg : STDPConfig) (s : ℕ) (w : ℤ) (hs : s < 16777216) :
    mkLoadedSynapse cfg (packSynapseValue s w) =
      { sourceNeuronGlobalId := s, weight := ((pyAnd255 w : ℕ) : ℚ) / 255,
        delayUs := 1000, minWeight := cfg.wMin, maxWeight := cfg.wMax,
        lastUpdateTimeUs := 0 } := by
  have hb := pyAnd255_lt w
  rw [packSynapseValue_eq s w hs]
  unfold mkLoadedSynapse
  have hsrc : ((256 * s + pyAnd255 w) >>> 8) &&& 0xFFFFFF = s := by
    rw [Nat.shiftRight_eq_div_pow]
    have hdiv : (256 * s + pyAnd255 w) / 2 ^ 8 = s := by
      norm_num
      omega
    rw [hdiv]
    have h := Nat.and_pow_two_sub_one_eq_mod s 24
    norm_num at h
    rw [h]
    exact Nat.mod_eq_of_lt hs
  have hlow : (256 * s + pyAnd255 w) &&& 0xFF = pyAnd255 w := by
    have h := Nat.and_pow_two_sub_one_eq_mod (256 * s + pyAnd255 w) 8
    norm_num at h
    rw [h]
    omega
  rw [hsrc, hlow]

theorem readU32_le32_append (v : ℕ) (l : List ℕ) :
    readU32 (le32 v ++ l) 0 = some (v % 4294967296) := by
  show readU32 (v % 256 :: v / 256 % 256 :: v / 65536 % 256 :: v / 16777216 % 256 :: l) 0
      = some (v % 4294967296)
  unfold readU32
  simp only [List.drop]
  congr 1
  omega

theorem parseSlots_cons (cfg : STDPConfig) (b0 b1 b2 b3 : ℕ) (l : List ℕ) :
    ∀ (count j : ℕ),
      parseSlots cfg (b0 :: b1 :: b2 :: b3 :: l) (j + 1) count = parseSlots cfg l j count := by
  intro count
  induction count with
  | zero => intro j; rfl
  | succ c ih =>
    intro j
    show (do
      let v ← readU32 (b0 :: b1 :: b2 :: b3 :: l) (4 * (j + 1))
      let rest ← parseSlots cfg (b0 :: b1 :: b2 :: b3 :: l) (j + 1 + 1) c
      some (mkLoadedSynapse cfg v :: rest)) = _
    have hv : readU32 (b0 :: b1 :: b2 :: b3 :: l) (4 * (j + 1)) = readU32 l (4 * j) := by
      unfold readU32
      congr 1
    rw [hv, ih (j + 1)]
    rfl

theorem parseSlots_flatten (cfg : STDPConfig) :
    ∀ (vs : List ℕ) (suffix : List ℕ), (∀ v ∈ vs, v < 4294967296) →
      parseSlots cfg ((vs.map le32).flatten ++ suffix) 0 vs.length =
        some (vs.map (mkLoadedSynapse cfg)) := by
  intro vs
  induction vs with
  | nil => intro suffix _; rfl
  | cons v vs ih =>
    intro suffix hv
    have hvlt : v < 4294967296 := hv v (List.mem_cons_self v vs)
    show parseSlots cfg ((le32 v :: vs.map le32).flatten ++ suffix) 0 (vs.length + 1) = _
    rw [List.flatten_cons, List.append_assoc]
    show (do
      let v2 ← readU32 (le32 v ++ ((vs.map le32).flatten ++ suffix)) (4 * 0)
      let rest ← parseSlots cfg (le32 v ++ ((vs.map le32).flatten ++ suffix)) (0 + 1) vs.length
      some (mkLoadedSynapse cfg v2 :: rest)) = _
    rw [show 4 * 0 = 0 from rfl, readU32_le32_append, Nat.mod_eq_of_lt hvlt]
    have hcons : parseSlots cfg (le32 v ++ ((vs.map le32).flatten ++ suffix)) (0 + 1) vs.length
        = parseSlots cfg ((vs.map le32).flatten ++ suffix) 0 vs.length := by
      show parseSlots cfg (v % 256 :: v / 256 % 256 :: v / 65536 % 256 ::
        v / 16777216 % 256 :: ((vs.map le32).flatten ++ suffix)) (0 + 1) vs.length = _
      exact parseSlots_cons cfg _ _ _ _ _ vs.length 0
    rw [hcons, ih suffix (fun u hu => hv u (List.mem_cons_of_mem v hu))]
    rfl

theorem parseSlots_synRegion (cfg : STDPConfig) (ss : List (ℕ × ℤ))
    (hlen : ss.length ≤ 54) (hs : ∀ p ∈ ss, p.1 < 16777216) :
    parseSlots cfg (synRegion ss) 0 ss.length =
      some (ss.map (fun p =>
        { sourceNeuronGlobalId := p.1, weight := ((pyAnd255 p.2 : ℕ) : ℚ) / 255,
          delayUs := 1000, minWeight := cfg.wMin, maxWeight := cfg.wMax,
          lastUpdateTimeUs := 0 })) := by
  unfold synRegion
  rw [List.take_of_length_le (by omega)]
  have hmm : (ss.map (fun p => le32 (packSynapseValue p.1 p.2)))
      = ((ss.map (fun p => packSynapseValue p.1 p.2)).map le32) := by
    rw [List.map_map]
    rfl
  rw [hmm]
  have hlen2 : (ss.map (fun p => packSynapseValue p.1 p.2)).length = ss.length := by
    simp
  rw [← hlen2]
  rw [parseSlots_flatten cfg _ _ (by
    intro v hv
    simp only [List.mem_map] at hv
    obtain ⟨p, _, hp⟩ := hv
    rw [← hp]
    exact packSynapseValue_lt p.1 p.2)]
  rw [List.map_map]
  congr 1
  apply List.map_congr_left
  intro p hp
  exact mkLoadedSynapse_pack cfg p.1 p.2 (hs p hp)

theorem synRegion_length (ss : List (ℕ × ℤ)) (h : ss.length ≤ 54) :
    (synRegion ss).length = 216 := by
  unfold synRegion
  rw [List.take_of_length_le (by omega)]
  rw [List.length_append, List.length_flatten, List.length_replicate]
  have hmap : (ss.map (fun p => le32 (packSynapseValue p.1 p.2))).map List.length
      = ss.map (fun _ => 4) := by
    rw [List.map_map]
    rfl
  rw [hmap, List.map_const', List.sum_replicate, smul_eq_mul]
  omega

theorem packNeuronEntry_length (c : CompiledNeuron) (h : c.synapses.length ≤ 54) :
    (packNeuronEntry c).length = 256 := by
  unfold packNeuronEntry le16 le32
  rw [List.length_append, List.length_append, List.length_append, List.length_append,
    List.length_append, List.length_append, List.length_append, List.length_append,
    List.length_append, List.length_append, List.length_append,
    synRegion_length c.synapses h]
  simp

theorem parseEntry_pack_gen (cfg : STDPConfig) (nid flags thr leak refr : ℕ)
    (ss : List (ℕ × ℤ))
    (h1 : nid < 65536) (h2 : flags < 65536) (h3 : thr < 4294967296)
    (h4 : leak < 4294967296) (h5 : refr < 4294967296) (h6 : ss.length ≤ 54)
    (h7 : ∀ p ∈ ss, p.1 < 16777216) :
    parseEntry cfg (packNeuronEntry ⟨nid, flags, thr, leak, refr, ss⟩) =
      some { neuronId := nid, flags := flags, membranePotentialBits := 0,
             thresholdBits := thr, lastSpikeTimeUs := 0,
             synapseCount := ss.length, synapseCapacity := 60,
             leakRateBits := leak, refractoryPeriodUs := refr,
             synapses := ss.map (fun p =>
               { sourceNeuronGlobalId := p.1,
                 weight := ((pyAnd255 p.2 : ℕ) : ℚ) / 255, delayUs := 1000,
                 minWeight := cfg.wMin, maxWeight := cfg.wMax,
                 lastUpdateTimeUs := 0 }) } := by
  have e1 : parseEntry cfg (packNeuronEntry ⟨nid, flags, thr, leak, refr, ss⟩) =
      (do
        let syns ← parseSlots cfg (synRegion ss) 0
          (min (dec16 (ss.length % 256) (ss.length / 256 % 256)) 60)
        some { neuronId := dec16 (nid % 256) (nid / 256 % 256),
               flags := dec16 (flags % 256) (flags / 256 % 256),
               membranePotentialBits := 0,
               thresholdBits := dec32 (thr % 256) (thr / 256 % 256)
                 (thr / 65536 % 256) (thr / 16777216 % 256),
               lastSpikeTimeUs := 0,
               synapseCount := dec16 (ss.length % 256) (ss.length / 256 % 256),
               synapseCapacity := dec16 60 0,
               leakRateBits := dec32 (leak % 256) (leak / 256 % 256)
                 (leak / 65536 % 256) (leak / 16777216 % 256),
               refractoryPeriodUs := dec32 (refr % 256) (refr / 256 % 256)
                 (refr / 65536 % 256) (refr / 16777216 % 256),
               synapses := syns }) := rfl
  rw [e1]
  have hc : dec16 (ss.length % 256) (ss.length / 256 % 256) = ss.length := by
    unfold dec16
    omega
  have hmin : min (dec16 (ss.length % 256) (ss.length / 256 % 256)) 60 = ss.length := by
    rw [hc]
    omega
  rw [hmin, parseSlots_synRegion cfg ss h6 h7]
  show some _ = some _
  rw [Option.some.injEq, ParsedNeuron.mk.injEq]
  refine ⟨by unfold dec16; omega, by unfold dec16; omega, rfl,
    by unfold dec32; omega, rfl, hc, by unfold dec16; omega,
    by unfold dec32; omega, by unfold dec32; omega, rfl⟩

theorem parseEntry_pack (cfg : STDPConfig) (sn : PreQuantNeuron) (h : sn.wf) :
    parseEntry cfg (packNeuronEntry sn.compile) = some (loadedNeuron cfg sn) := by
  obtain ⟨h1, h2, h3, h4, h5, h6, h7⟩ := h
  have hpack : sn.compile = ⟨sn.neuronId, sn.flags, sn.thresholdBits, sn.leakRateBits,
      sn.refractoryPeriodUs, sn.synapses.map (fun p => (p.1, quantizeWeight p.2))⟩ := rfl
  rw [hpack]
  rw [parseEntry_pack_gen cfg _ _ _ _ _ _ h1 h2 h3 h4 h5
    (by rw [List.length_map]; exact h6)
    (by
      intro p hp
      rw [List.mem_map] at hp
      obtain ⟨q, hq, hpq⟩ := hp
      rw [← hpq]
      exact h7 q hq)]
  unfold loadedNeuron
  rw [Option.some.injEq, ParsedNeuron.mk.injEq]
  refine ⟨rfl, rfl, rfl, rfl, rfl, by rw [List.length_map], rfl, rfl, rfl, ?_⟩
  rw [List.map_map]
  rfl

theorem parseEntries_shift (cfg : STDPConfig) (b : List ℕ) (hb : b.length = 256)
    (rest : List ℕ) :
    ∀ (count i : ℕ),
      parseEntries cfg (b ++ rest) (i + 1) count = parseEntries cfg rest i count := by
  intro count
  induction count with
  | zero => intro i; rfl
  | succ c ih =>
    intro i
    show (do
      let e ← parseEntry cfg (((b ++ rest).drop (256 * (i + 1))).take 256)
      let r ← parseEntries cfg (b ++ rest) (i + 1 + 1) c
      some (e :: r)) = (do
      let e ← parseEntry cfg ((rest.drop (256 * i)).take 256)
      let r ← parseEntries cfg rest (i + 1) c
      some (e :: r))
    have hdrop : (b ++ rest).drop (256 * (i + 1)) = rest.drop (256 * i) := by
      rw [show 256 * (i + 1) = b.length + 256 * i by rw [hb]; ring]
      exact List.drop_append (256 * i)
    rw [hdrop, ih (i + 1)]

theorem packNeuronEntry_length_of_wf (sn : PreQuantNeuron) (hwf : sn.wf) :
    (packNeuronEntry sn.compile).length = 256 := by
  apply packNeuronEntry_length
  show (sn.synapses.map (fun p => (p.1, quantizeWeight p.2))).length ≤ 54
  rw [List.length_map]
  exact hwf.2.2.2.2.2.1

theorem compiledTable_length (sns : List PreQuantNeuron) (h : ∀ sn ∈ sns, sn.wf) :
    (compiledTable sns).length = 256 * sns.length := by
  induction sns with
  | nil => rfl
  | cons sn sns ih =>
    have htbl : compiledTable (sn :: sns) =
        packNeuronEntry sn.compile ++ compiledTable sns := by
      unfold compiledTable
      rw [List.map_cons, List.flatten_cons]
    rw [htbl, List.length_append,
      packNeuronEntry_length_of_wf sn (h sn (List.mem_cons_self sn sns)),
      ih (fun x hx => h x (List.mem_cons_of_mem sn hx)), List.length_cons]
    ring

theorem parseEntries_compiled (cfg : STDPConfig) :
    ∀ (sns : List PreQuantNeuron), (∀ sn ∈ sns, sn.wf) →
      parseEntries cfg (compiledTable sns) 0 sns.length =
        some (sns.map (loadedNeuron cfg)) := by
  intro sns
  induction sns with
  | nil => intro _; rfl
  | cons sn sns ih =>
    intro h
    have hwf := h sn (List.mem_cons_self sn sns)
    have hlen : (packNeuronEntry sn.compile).length = 256 :=
      packNeuronEntry_length_of_wf sn hwf
    have htbl : compiledTable (sn :: sns) =
        packNeuronEntry sn.compile ++ compiledTable sns := by
      unfold compiledTable
      rw [List.map_cons, List.flatten_cons]
    rw [htbl]
    show (do
      let e ← parseEntry cfg
        (((packNeuronEntry sn.compile ++ compiledTable sns).drop (256 * 0)).take 256)
      let r ← parseEntries cfg (packNeuronEntry sn.compile ++ compiledTable sns) (0 + 1)
        sns.length
      some (e :: r)) = _
    have hslice : ((packNeuronEntry sn.compile ++ compiledTable sns).drop (256 * 0)).take 256
        = packNeuronEntry sn.compile := by
      rw [show 256 * 0 = 0 from rfl, List.drop_zero, List.take_left' hlen]
    rw [hslice, parseEntry_pack cfg sn hwf,
      parseEntries_shift cfg (packNeuronEntry sn.compile) hlen (compiledTable sns)
        sns.length 0,
      ih (fun x hx => h x (List.mem_cons_of_mem sn hx))]
    rfl

theorem loadTable_compiled (cfg : STDPConfig) (sns : List PreQuantNeuron)
    (h : ∀ sn ∈ sns, sn.wf) :
    loadNeuronsFromTable cfg (compiledTable sns) = some (sns.map (loadedNeuron cfg)) := by
  unfold loadNeuronsFromTable
  rw [compiledTable_length sns h,
    Nat.mul_div_cancel_left sns.length (by norm_num : (0:ℕ) < 256)]
  exact parseEntries_compiled cfg sns h

theorem loadedWeight_close (w : ℚ) (h0 : 0 ≤ w) (h1 : w ≤ 1) :
    |loadedWeight w - w| ≤ 1 / 255 := by
  unfold loadedWeight quantizeWeight pyTrunc
  rw [if_pos (by positivity : (0 : ℚ) ≤ w * 255)]
  have hfl0 : (0 : ℤ) ≤ ⌊w * 255⌋ := Int.floor_nonneg.mpr (by positivity)
  have hfl1 : ⌊w * 255⌋ ≤ 255 := by
    have hle : w * 255 ≤ 255 := by linarith
    calc ⌊w * 255⌋ ≤ ⌊(255 : ℚ)⌋ := Int.floor_le_floor hle
    _ = 255 := by norm_num
  have hand : pyAnd255 ⌊w * 255⌋ = (⌊w * 255⌋).toNat := by
    unfold pyAnd255
    congr 1
    exact Int.emod_eq_of_lt hfl0 (by omega)
  rw [hand]
  have hcast : (((⌊w * 255⌋).toNat : ℕ) : ℚ) = ((⌊w * 255⌋ : ℤ) : ℚ) := by
    have h := Int.toNat_of_nonneg hfl0
    exact_mod_cast congrArg (fun z => ((z : ℤ) : ℚ)) h
  rw [hcast]
  have hle : ((⌊w * 255⌋ : ℤ) : ℚ) ≤ w * 255 := Int.floor_le _
  have hgt : w * 255 < ((⌊w * 255⌋ : ℤ) : ℚ) + 1 := Int.lt_floor_add_one _
  rw [abs_le]
  constructor <;> linarith

/-! ### Helper lemmas about dict updates and the plain engine -/

theorem lookupAssoc_insertAssoc_self {α : Type} (l : List (ℕ × α)) (k : ℕ) (v : α) :
    lookupAssoc (insertAssoc l k v) k = some v := by
  induction l with
  | nil => simp [insertAssoc, lookupAssoc]
  | cons p rest ih =>
    by_cases h : p.1 = k
    · simp [insertAssoc, lookupAssoc, h]
    · simp [insertAssoc, lookupAssoc, h, ih]

theorem lookupAssoc_insertAssoc_ne {α : Type} (l : List (ℕ × α)) (k k2 : ℕ) (v : α)
    (h : k2 ≠ k) : lookupAssoc (insertAssoc l k v) k2 = lookupAssoc l k2 := by
  induction l with
  | nil =>
    simp only [insertAssoc, lookupAssoc]
    rw [if_neg (fun he => h he.symm)]
  | cons p rest ih =>
    by_cases hp : p.1 = k
    · simp only [insertAssoc, if_pos hp, lookupAssoc]
      rw [if_neg (by omega), if_neg (by omega)]
    · simp only [insertAssoc, if_neg hp, lookupAssoc]
      by_cases hp2 : p.1 = k2
      · rw [if_pos hp2, if_pos hp2]
      · rw [if_neg hp2, if_neg hp2, ih]

/-- Engine dict well-formedness: every neuron record is stored under its own
id (the loader establishes this). -/
def Engine.wfNeurons (e : Engine) : Prop := ∀ p ∈ e.neurons, p.2.neuronId = p.1

theorem wfNeurons_insert (l : List (ℕ × Neuron)) (k : ℕ) (v : Neuron)
    (hl : ∀ p ∈ l, p.2.neuronId = p.1) (hv : v.neuronId = k) :
    ∀ p ∈ insertAssoc l k v, p.2.neuronId = p.1 := by
  induction l with
  | nil =>
    intro p hp
    have hpe : p = (k, v) := by simpa [insertAssoc] using hp
    rw [hpe]
    exact hv
  | cons q rest ih =>
    intro p hp
    by_cases hq : q.1 = k
    · rw [show insertAssoc (q :: rest) k v = (q.1, v) :: rest from by
        simp [insertAssoc, hq]] at hp
      rcases List.mem_cons.mp hp with hpe | hpm
      · rw [hpe]
        show v.neuronId = q.1
        rw [hq]
        exact hv
      · exact hl p (List.mem_cons_of_mem q hpm)
    · rw [show insertAssoc (q :: rest) k v = q :: insertAssoc rest k v from by
        simp [insertAssoc, hq]] at hp
      rcases List.mem_cons.mp hp with hpe | hpm
      · rw [hpe]
        exact hl q (List.mem_cons_self q rest)
      · exact ih (fun r hr => hl r (List.mem_cons_of_mem q hr)) p hpm

theorem lookupAssoc_mem {α : Type} (l : List (ℕ × α)) (k : ℕ) (v : α)
    (h : lookupAssoc l k = some v) : (k, v) ∈ l := by
  induction l with
  | nil => simp [lookupAssoc] at h
  | cons p rest ih =>
    by_cases hp : p.1 = k
    · simp only [lookupAssoc, if_pos hp, Option.some.injEq] at h
      have hpv : (k, v) = p := by rw [← hp, ← h]
      rw [hpv]
      exact List.mem_cons_self p rest
    · simp only [lookupAssoc, if_neg hp] at h
      exact List.mem_cons_of_mem p (ih h)

/-- The synapse walk only changes the membrane potential. -/
theorem applySynapses_fields (sp : Spike) :
    ∀ (syns : List Synapse) (n : Neuron),
      (applySynapses sp n syns).1.neuronId = n.neuronId ∧
      (applySynapses sp n syns).1.threshold = n.threshold ∧
      (applySynapses sp n syns).1.leakRate = n.leakRate ∧
      (applySynapses sp n syns).1.refractoryPeriodUs = n.refractoryPeriodUs ∧
      (applySynapses sp n syns).1.lastSpikeTimeUs = n.lastSpikeTimeUs := by
  intro syns
  induction syns with
  | nil => intro n; exact ⟨rfl, rfl, rfl, rfl, rfl⟩
  | cons s rest ih =>
    intro n
    by_cases hm : synapseMatches sp s
    · simp only [applySynapses, if_pos hm]
      by_cases hf : n.threshold ≤ n.membranePotential + s.weight * sp.value
      · rw [if_pos (by exact hf)]
        exact ⟨rfl, rfl, rfl, rfl, rfl⟩
      · rw [if_neg (by exact hf)]
        exact ih _
    · simp only [applySynapses, if_neg hm]
      exact ih n

/-- When the synapse walk does not fire, either nothing matched (the neuron
is untouched) or the accumulated potential stayed strictly below threshold:
crossing the threshold inside the walk always fires. -/
theorem applySynapses_not_fired (sp : Spike) :
    ∀ (syns : List Synapse) (n : Neuron), (applySynapses sp n syns).2 = false →
      (applySynapses sp n syns).1.membranePotential < n.threshold ∨
        applySynapses sp n syns = (n, false) := by
  intro syns
  induction syns with
  | nil => intro n _; right; rfl
  | cons s rest ih =>
    intro n hf
    by_cases hm : synapseMatches sp s
    · simp only [applySynapses, if_pos hm] at hf ⊢
      by_cases hcross : n.threshold ≤ n.membranePotential + s.weight * sp.value
      · rw [if_pos (by exact hcross)] at hf
        simp at hf
      · rw [if_neg (by exact hcross)] at hf ⊢
        rcases ih _ hf with h | h
        · left
          exact h
        · left
          rw [h]
          simpa using lt_of_not_le hcross
    · simp only [applySynapses, if_neg hm] at hf ⊢
      exact ih n hf

/-- processTarget does not touch the clock. -/
theorem processTarget_time (sp : Spike) (e : Engine) (entry : ℕ × List Synapse) :
    (processTarget sp e entry).currentTimeUs = e.currentTimeUs := by
  unfold processTarget
  split
  · rfl
  · split
    · rfl
    · dsimp only
      split
      · unfold generateSpike
        rfl
      · rfl

/-- Unfolding of processTarget at a target whose neuron record exists. -/
theorem processTarget_some (sp : Spike) (e : Engine) (entry : ℕ × List Synapse)
    (m : Neuron) (hm : lookupAssoc e.neurons entry.1 = some m) :
    processTarget sp e entry =
      if (e.currentTimeUs : ℤ) - (m.lastSpikeTimeUs : ℤ) < (m.refractoryPeriodUs : ℤ) then e
      else
        if (applySynapses sp m entry.2).2 then
          { (generateSpike e (applySynapses sp m entry.2).1).2 with
              neurons := insertAssoc (generateSpike e (applySynapses sp m entry.2).1).2.neurons
                entry.1 (generateSpike e (applySynapses sp m entry.2).1).1 }
        else { e with neurons := insertAssoc e.neurons entry.1 (applySynapses sp m entry.2).1 } := by
  unfold processTarget
  rw [hm]

/-- A target in its refractory window is skipped entirely. -/
theorem processTarget_refractory (sp : Spike) (e : Engine) (tid : ℕ)
    (syns : List Synapse) (n : Neuron)
    (hn : lookupAssoc e.neurons tid = some n)
    (hr : (e.currentTimeUs : ℤ) - (n.lastSpikeTimeUs : ℤ) < (n.refractoryPeriodUs : ℤ)) :
    processTarget sp e (tid, syns) = e := by
  rw [processTarget_some sp e (tid, syns) n hn]
  exact if_pos hr

/-- One target step of the drain preserves dict well-formedness, any
refractory neuron record, the outgoing spikes attributed to that neuron,
and the clock. -/
theorem processTarget_preserves (sp : Spike) (e : Engine) (entry : ℕ × List Synapse)
    (tid : ℕ) (n : Neuron)
    (hwf : ∀ p ∈ e.neurons, p.2.neuronId = p.1)
    (hn : lookupAssoc e.neurons tid = some n)
    (hrefr : (e.currentTimeUs : ℤ) - (n.lastSpikeTimeUs : ℤ) < (n.refractoryPeriodUs : ℤ)) :
    (∀ p ∈ (processTarget sp e entry).neurons, p.2.neuronId = p.1) ∧
    lookupAssoc (processTarget sp e entry).neurons tid = some n ∧
    (processTarget sp e entry).outgoingSpikes.filter (fun s => s.neuronId == tid) =
      e.outgoingSpikes.filter (fun s => s.neuronId == tid) ∧
    (processTarget sp e entry).currentTimeUs = e.currentTimeUs := by
  by_cases hcase : entry.1 = tid
  · have heq : processTarget sp e entry = e := by
      have h := processTarget_refractory sp e entry.1 entry.2 n (by rw [hcase]; exact hn) hrefr
      exact h
    rw [heq]
    exact ⟨hwf, hn, rfl, rfl⟩
  · cases hm : lookupAssoc e.neurons entry.1 with
    | none =>
      have heq : processTarget sp e entry = e := by
        unfold processTarget
        rw [hm]
      rw [heq]
      exact ⟨hwf, hn, rfl, rfl⟩
    | some m =>
      by_cases hr : (e.currentTimeUs : ℤ) - (m.lastSpikeTimeUs : ℤ) < (m.refractoryPeriodUs : ℤ)
      · have heq : processTarget sp e entry = e := by
          unfold processTarget
          rw [hm]
          exact if_pos hr
        rw [heq]
        exact ⟨hwf, hn, rfl, rfl⟩
      · have hmid : m.neuronId = entry.1 := hwf (entry.1, m) (lookupAssoc_mem _ _ _ hm)
        have hfid : (applySynapses sp m entry.2).1.neuronId = entry.1 := by
          rw [(applySynapses_fields sp entry.2 m).1, hmid]
        by_cases hf : (applySynapses sp m entry.2).2 = true
        · have heq : processTarget sp e entry =
              { e with
                neurons := insertAssoc e.neurons entry.1
                  { (applySynapses sp m entry.2).1 with
                      membranePotential := 0, lastSpikeTimeUs := e.currentTimeUs },
                outgoingSpikes := e.outgoingSpikes ++
                  [{ neuronId := (applySynapses sp m entry.2).1.neuronId,
                     sourceNode := e.nodeId, sourceBackplane := e.backplaneId,
                     timestampUs := e.currentTimeUs, value := 1 }],
                stats := { e.stats with
                  totalSpikesSent := e.stats.totalSpikesSent + 1,
                  neuronsSpiked := e.stats.neuronsSpiked + 1 } } := by
            rw [processTarget_some sp e entry m hm, if_neg hr, if_pos hf]
            unfold generateSpike
            rfl
          rw [heq]
          refine ⟨?_, ?_, ?_, rfl⟩
          · exact wfNeurons_insert e.neurons entry.1 _ hwf hfid
          · rw [lookupAssoc_insertAssoc_ne e.neurons entry.1 tid _
              (fun he => hcase he.symm)]
            exact hn
          · show List.filter _ (e.outgoingSpikes ++ [_]) = _
            rw [List.filter_append]
            have hb : (entry.1 == tid) = false := beq_eq_false_iff_ne.mpr hcase
            have hone : List.filter (fun s => s.neuronId == tid)
                [({ neuronId := (applySynapses sp m entry.2).1.neuronId,
                    sourceNode := e.nodeId, sourceBackplane := e.backplaneId,
                    timestampUs := e.currentTimeUs, value := 1 } : Spike)] = [] := by
              simp [List.filter, hfid, hb]
            rw [hone, List.append_nil]
        · have heq : processTarget sp e entry =
              { e with neurons := insertAssoc e.neurons entry.1 (applySynapses sp m entry.2).1 } := by
            rw [processTarget_some sp e entry m hm, if_neg hr, if_neg hf]
          rw [heq]
          refine ⟨?_, ?_, rfl, rfl⟩
          · exact wfNeurons_insert e.neurons entry.1 _ hwf hfid
          · rw [lookupAssoc_insertAssoc_ne e.neurons entry.1 tid _
              (fun he => hcase he.symm)]
            exact hn

/-- The whole spike drain leaves a refractory neuron and its outgoing-spike
record untouched: refractory gating holds on the synapse-drain path of the
plain engine. -/
theorem processSpike_refractory_aux (sp : Spike) (tid : ℕ) (n : Neuron) :
    ∀ (entries : List (ℕ × List Synapse)) (e : Engine),
      (∀ p ∈ e.neurons, p.2.neuronId = p.1) →
      lookupAssoc e.neurons tid = some n →
      (e.currentTimeUs : ℤ) - (n.lastSpikeTimeUs : ℤ) < (n.refractoryPeriodUs : ℤ) →
      (∀ p ∈ (entries.foldl (processTarget sp) e).neurons, p.2.neuronId = p.1) ∧
      lookupAssoc (entries.foldl (processTarget sp) e).neurons tid = some n ∧
      (entries.foldl (processTarget sp) e).outgoingSpikes.filter
          (fun s => s.neuronId == tid) =
        e.outgoingSpikes.filter (fun s => s.neuronId == tid) ∧
      (entries.foldl (processTarget sp) e).currentTimeUs = e.currentTimeUs := by
  intro entries
  induction entries with
  | nil => intro e hwf hn hrefr; exact ⟨hwf, hn, rfl, rfl⟩
  | cons entry rest ih =>
    intro e hwf hn hrefr
    obtain ⟨hwf1, hn1, hout1, ht1⟩ := processTarget_preserves sp e entry tid n hwf hn hrefr
    obtain ⟨hwf2, hn2, hout2, ht2⟩ := ih (processTarget sp e entry) hwf1 hn1 (by rw [ht1]; exact hrefr)
    refine ⟨hwf2, hn2, ?_, ?_⟩
    · rw [List.foldl_cons, hout2, hout1]
    · rw [List.foldl_cons, ht2, ht1]

/-- processTarget appends at most one outgoing spike. -/
theorem processTarget_outgoing_length (sp : Spike) (e : Engine) (entry : ℕ × List Synapse) :
    (processTarget sp e entry).outgoingSpikes.length ≤ e.outgoingSpikes.length + 1 := by
  cases hm : lookupAssoc e.neurons entry.1 with
  | none =>
    have heq : processTarget sp e entry = e := by
      unfold processTarget
      rw [hm]
    rw [heq]
    omega
  | some m =>
    rw [processTarget_some sp e entry m hm]
    by_cases hr : (e.currentTimeUs : ℤ) - (m.lastSpikeTimeUs : ℤ) < (m.refractoryPeriodUs : ℤ)
    · rw [if_pos hr]
      omega
    · rw [if_neg hr]
      by_cases hf : (applySynapses sp m entry.2).2
      · rw [if_pos hf]
        unfold generateSpike
        simp
      · rw [if_neg hf]
        show e.outgoingSpikes.length ≤ e.outgoingSpikes.length + 1
        omega

/-! ### Claim theorems -/

/-- C1 (amended): the compiler-to-loader round trip holds through the STDP
engine's binary-table loader: loading the packed table of any list of
compiled neurons (pack-accepted fields, at most 54 synapses, 24-bit source
ids) reproduces every neuron exactly — same id, flags, threshold bits, leak
bits and refractory period, zero initial potential and last-spike time,
synapse list in emission order with the emitted source ids — and any
pre-quantization weight in [0, 1] is reproduced within 1/255.  (The plain
engine's parsed-neuron loader violates the weight bound; see the
counterexample.) -/
theorem c1_roundtrip_stdp_loader (cfg : STDPConfig) (sns : List PreQuantNeuron)
    (hwf : ∀ sn ∈ sns, sn.wf) (w : ℚ) (h0 : 0 ≤ w) (h1 : w ≤ 1) :
    loadNeuronsFromTable cfg (compiledTable sns) = some (sns.map (loadedNeuron cfg)) ∧
    |loadedWeight w - w| ≤ 1 / 255 :=
  ⟨loadTable_compiled cfg sns hwf, loadedWeight_close w h0 h1⟩

theorem c1_roundtrip_stdp_loader_witness :
    loadNeuronsFromTable STDPConfig.default
        (compiledTable [⟨7, 5, 1065353216, 1064304443, 2000, [(3, 1/2), (65541, 1)]⟩]) =
      some ([⟨7, 5, 1065353216, 1064304443, 2000, [(3, 1/2), (65541, 1)]⟩].map
        (loadedNeuron STDPConfig.default)) ∧
    |loadedWeight (1/2) - 1/2| ≤ 1 / 255 :=
  c1_roundtrip_stdp_loader STDPConfig.default
    [⟨7, 5, 1065353216, 1064304443, 2000, [(3, 1/2), (65541, 1)]⟩]
    (by decide) (1/2) (by norm_num) (by norm_num)

/-- C1 counterexample: the claim fails for the plain engine's loader, which
is one of the loaders the round trip is claimed for.  The compiler quantizes
the constant weight 0.5 to the byte 127, but load_from_parsed_neurons
decodes byte 127 with the signed /63.5 scheme to the weight 2.0, which is
off by 1.5, far beyond 1/255. -/
theorem c1_counterexample :
    quantizeWeight (1/2) = 127 ∧
    lookupAssoc (loadFromParsedNeurons (Engine.init 0 0)
        [⟨1, 0, 1, 1, 1000, 0, 1, 1, [(0, 127)]⟩]).synapses 1 =
      some [⟨0, 2, 1000⟩] ∧
    ¬(|(2 : ℚ) - 1/2| ≤ 1 / 255) := by
  refine ⟨?_, ?_, ?_⟩
  · unfold quantizeWeight pyTrunc
    rw [if_pos (by norm_num)]
    rw [Int.floor_eq_iff]
    norm_num
  · simp [loadFromParsedNeurons, Engine.init, insertAssoc, lookupAssoc, decodeWeightSigned]
    norm_num
  · rw [show (2 : ℚ) - 1/2 = 3/2 by norm_num, abs_of_pos (by norm_num)]
    norm_num

/-- C2 (amended): refractory gating holds on the synapse-drain path of the
plain engine: a neuron whose last fire lies within its refractory window is
left untouched by an entire incoming-spike drain — its record is unchanged
and no outgoing spike is attributed to it.  (It does not hold for
inject_spike direct fires, which bypass the check; see the
counterexample.) -/
theorem c2_refractory_drain (e : Engine) (sp : Spike) (tid : ℕ) (n : Neuron)
    (hwf : ∀ p ∈ e.neurons, p.2.neuronId = p.1)
    (hn : lookupAssoc e.neurons tid = some n)
    (hrefr : (e.currentTimeUs : ℤ) - (n.lastSpikeTimeUs : ℤ) < (n.refractoryPeriodUs : ℤ)) :
    lookupAssoc (processSpike e sp).neurons tid = some n ∧
    (processSpike e sp).outgoingSpikes.filter (fun s => s.neuronId == tid) =
      e.outgoingSpikes.filter (fun s => s.neuronId == tid) := by
  obtain ⟨_, h2, h3, _⟩ := processSpike_refractory_aux sp tid n e.synapses e hwf hn hrefr
  exact ⟨h2, h3⟩

def c2Neuron : Neuron :=
  { neuronId := 5, membranePotential := 0, threshold := 1, leakRate := 1,
    refractoryPeriodUs := 5000, lastSpikeTimeUs := 500, synapseCount := 1, flags := 1 }

def c3Synapse : Synapse := { sourceNeuronGlobalId := 3, weight := 1, delayUs := 1000 }

def c2Engine : Engine :=
  { Engine.init 0 0 with
    currentTimeUs := 1000,
    neurons := [(5, c2Neuron)],
    synapses := [(5, [c3Synapse])] }

theorem c2_refractory_drain_witness :
    lookupAssoc (processSpike c2Engine ⟨3, 0, 0, 900, 1⟩).neurons 5 = some c2Neuron ∧
    (processSpike c2Engine ⟨3, 0, 0, 900, 1⟩).outgoingSpikes.filter
        (fun s => s.neuronId == 5) =
      c2Engine.outgoingSpikes.filter (fun s => s.neuronId == 5) :=
  c2_refractory_drain c2Engine ⟨3, 0, 0, 900, 1⟩ 5 c2Neuron
    (by decide) (by simp [c2Engine, c2Neuron, lookupAssoc]) (by decide)

def c2InputNeuron : Neuron :=
  { neuronId := 0, membranePotential := 0, threshold := 1, leakRate := 1,
    refractoryPeriodUs := 5000, lastSpikeTimeUs := 0, synapseCount := 0, flags := 5 }

def c2InputEngine : Engine := { Engine.init 0 0 with neurons := [(0, c2InputNeuron)] }

/-- C2 counterexample: the invariant fails for inject_spike direct fires.
A zero-synapse neuron with a 5000 microsecond refractory period is injected
at t = 0 and again at t = 1000 (after one simulation step): both injections
fire, producing two outgoing spikes 1000 microseconds apart, inside the
refractory window of the first fire. -/
theorem c2_counterexample :
    (injectSpike (simulationStep (injectSpike c2InputEngine 0 1)) 0 1).outgoingSpikes.map
        Spike.timestampUs = [0, 1000] ∧
    c2InputNeuron.refractoryPeriodUs = 5000 ∧ ((1000 : ℤ) - 0 < 5000) := by
  refine ⟨?_, rfl, by decide⟩
  simp [c2InputEngine, c2InputNeuron, Engine.init, EngineStats.zero, injectSpike,
    simulationStep, leakPass, processSpike, generateSpike, lookupAssoc, insertAssoc]

/-- C3 (amended): in the plain engine the claim holds: when the synapse walk
for a target crosses threshold, the neuron fires during the processing of
that same spike — potential reset to 0, fire time stamped, exactly one spike
appended to the outgoing queue — and one spike causes at most one fire per
target entry; when the walk does not fire, either no synapse matched or the
accumulated potential stayed strictly below threshold.  (The STDP engine
violates the claim: its drain integrates without any threshold test; see
the counterexample.) -/
theorem c3_fire_on_threshold (sp : Spike) (e e2 : Engine) (tid : ℕ) (n n2 : Neuron)
    (syns syns2 : List Synapse) (entry2 : ℕ × List Synapse)
    (hn : lookupAssoc e.neurons tid = some n)
    (hrefr : ¬((e.currentTimeUs : ℤ) - (n.lastSpikeTimeUs : ℤ) < (n.refractoryPeriodUs : ℤ)))
    (hfire : (applySynapses sp n syns).2 = true)
    (hnofire : (applySynapses sp n2 syns2).2 = false) :
    lookupAssoc (processTarget sp e (tid, syns)).neurons tid =
      some { (applySynapses sp n syns).1 with
              membranePotential := 0, lastSpikeTimeUs := e.currentTimeUs } ∧
    (processTarget sp e (tid, syns)).outgoingSpikes =
      e.outgoingSpikes ++
        [{ neuronId := (applySynapses sp n syns).1.neuronId,
           sourceNode := e.nodeId, sourceBackplane := e.backplaneId,
           timestampUs := e.currentTimeUs, value := 1 }] ∧
    ((applySynapses sp n2 syns2).1.membranePotential < n2.threshold ∨
      applySynapses sp n2 syns2 = (n2, false)) ∧
    (processTarget sp e2 entry2).outgoingSpikes.length ≤ e2.outgoingSpikes.length + 1 := by
  have heq : processTarget sp e (tid, syns) =
      { (generateSpike e (applySynapses sp n syns).1).2 with
          neurons := insertAssoc (generateSpike e (applySynapses sp n syns).1).2.neurons
            tid (generateSpike e (applySynapses sp n syns).1).1 } := by
    rw [processTarget_some sp e (tid, syns) n hn, if_neg hrefr, if_pos hfire]
  refine ⟨?_, ?_, applySynapses_not_fired sp syns2 n2 hnofire,
    processTarget_outgoing_length sp e2 entry2⟩
  · rw [heq]
    exact lookupAssoc_insertAssoc_self _ _ _
  · rw [heq]
    rfl

def c3WEngine : Engine :=
  { Engine.init 0 0 with
    currentTimeUs := 99999,
    neurons := [(5, c2Neuron)],
    synapses := [(5, [c3Synapse])] }

theorem c3_fire_on_threshold_witness :
    lookupAssoc (processTarget ⟨3, 0, 0, 900, 1⟩ c3WEngine (5, [c3Synapse])).neurons 5 =
      some { (applySynapses ⟨3, 0, 0, 900, 1⟩ c2Neuron [c3Synapse]).1 with
              membranePotential := 0, lastSpikeTimeUs := c3WEngine.currentTimeUs } ∧
    (processTarget ⟨3, 0, 0, 900, 1⟩ c3WEngine (5, [c3Synapse])).outgoingSpikes =
      c3WEngine.outgoingSpikes ++
        [{ neuronId := (applySynapses ⟨3, 0, 0, 900, 1⟩ c2Neuron [c3Synapse]).1.neuronId,
           sourceNode := c3WEngine.nodeId, sourceBackplane := c3WEngine.backplaneId,
           timestampUs := c3WEngine.currentTimeUs, value := 1 }] ∧
    ((applySynapses ⟨3, 0, 0, 900, 1⟩ c2Neuron []).1.membranePotential < c2Neuron.threshold ∨
      applySynapses ⟨3, 0, 0, 900, 1⟩ c2Neuron [] = (c2Neuron, false)) ∧
    (processTarget ⟨3, 0, 0, 900, 1⟩ c3WEngine (5, [])).outgoingSpikes.length ≤
      c3WEngine.outgoingSpikes.length + 1 :=
  c3_fire_on_threshold ⟨3, 0, 0, 900, 1⟩ c3WEngine c3WEngine 5 c2Neuron c2Neuron
    [c3Synapse] [] (5, [])
    (by simp [c3WEngine, c2Neuron, Engine.init, lookupAssoc])
    (by decide)
    (by simp [applySynapses, synapseMatches, spikeGlobalId, c2Neuron, c3Synapse]; decide)
    rfl

def c3NeuronSTDP : NeuronSTDP :=
  { neuronId := 1, membranePotential := 0, threshold := 1, leakRate := 1,
    refractoryPeriodUs := 1000, lastSpikeTimeUs := 0, synapseCount := 1, flags := 1,
    preTrace := 0, postTrace := 0 }

def c3SynapseSTDP : SynapseSTDP :=
  { sourceNeuronGlobalId := 0, weight := 1, delayUs := 1000, minWeight := 0,
    maxWeight := 1, lastUpdateTimeUs := 0 }

def c3EngineSTDP : EngineSTDP :=
  { nodeId := 0, backplaneId := 0, cfg := STDPConfig.default,
    neurons := [(1, c3NeuronSTDP)], synapses := [(1, [c3SynapseSTDP])],
    incomingSpikes := [], outgoingSpikes := [], spikeHistory := [(1, [])],
    currentTimeUs := 2000, timestepUs := 1000, stats := StatsSTDP.zero }

/-- C3 counterexample: the claim fails for the STDP engine.  Processing a
spike that raises neuron 1 from 0 to its threshold 1 leaves the potential at
1 (no reset) and appends nothing to the outgoing queue: the STDP drain never
fires during spike processing. -/
theorem c3_counterexample :
    (processSpikeSTDP id c3EngineSTDP ⟨0, 3, 0, 0, 1⟩).map (fun e =>
        ((lookupAssoc e.neurons 1).map NeuronSTDP.membranePotential,
         e.outgoingSpikes.length)) = some (some 1, 0) ∧
    c3NeuronSTDP.threshold = 1 ∧
    c3NeuronSTDP.membranePotential + c3SynapseSTDP.weight * 1 = 1 := by
  refine ⟨?_, rfl, by norm_num [c3NeuronSTDP, c3SynapseSTDP]⟩
  simp [processSpikeSTDP, c3EngineSTDP, c3NeuronSTDP, c3SynapseSTDP, STDPConfig.default,
    StatsSTDP.zero, lookupAssoc, insertAssoc, pushHistory, stdpApplyToTarget, fireNeuron,
    applySTDP]

/-! ### Scenario S6: 2 input, 3 hidden, 1 output, fully connected with
constant weight 0.5, default node list range(12), balanced assignment. -/

def s6Layer (id : ℕ) (ty : LayerType) (a b : ℕ) : Layer :=
  { layerId := id, layerType := ty, neuronStart := a, neuronEnd := b,
    thresholdBits := 0x3F800000, leakRateBits := 0x3F733333, refractoryPeriodUs := 1000 }

def s6Topology : Topology :=
  { neuronCount := 6,
    layers := [s6Layer 0 LayerType.input 0 1, s6Layer 1 LayerType.hidden 2 4,
               s6Layer 2 LayerType.output 5 5],
    connections := [
      { sourceLayer := 0, targetLayer := 1, weightInit := WeightInit.constant (1/2) },
      { sourceLayer := 1, targetLayer := 2, weightInit := WeightInit.constant (1/2) }],
    nodes := List.range 12 }

/-- Compiler-internal record for one S6 neuron: with the balanced default
assignment every global id g lands alone on node g with local id 0. -/
def s6Cfg (gid flags : ℕ) (syns : List (ℕ × ℤ)) : NeuronCfg :=
  { neuronId := 0, globalId := gid, nodeId := gid, flags := flags,
    thresholdBits := 0x3F800000, leakRateBits := 0x3F733333, refractoryPeriodUs := 1000,
    synapses := syns }

def s6Cfgs0 : List NeuronCfg :=
  [s6Cfg 0 5 [], s6Cfg 1 5 [], s6Cfg 2 1 [], s6Cfg 3 1 [], s6Cfg 4 1 [], s6Cfg 5 9 []]

def s6Cfgs1 : List NeuronCfg :=
  [s6Cfg 0 5 [], s6Cfg 1 5 [], s6Cfg 2 1 [(0, 127), (1, 127)],
   s6Cfg 3 1 [(0, 127), (1, 127)], s6Cfg 4 1 [(0, 127), (1, 127)], s6Cfg 5 9 []]

def s6Cfgs2 : List NeuronCfg :=
  [s6Cfg 0 5 [], s6Cfg 1 5 [], s6Cfg 2 1 [(0, 127), (1, 127)],
   s6Cfg 3 1 [(0, 127), (1, 127)], s6Cfg 4 1 [(0, 127), (1, 127)],
   s6Cfg 5 9 [(2, 127), (3, 127), (4, 127)]]

/-- The compiler quantizes the constant weight 0.5 to int(0.5 * 255) =
int(127.5) = 127 (truncation, not rounding). -/
theorem quantize_half (d : ℚ) :
    quantizeWeight (genWeightFloat (WeightInit.constant (1/2)) d) = 127 := by
  show quantizeWeight (1/2) = 127
  unfold quantizeWeight pyTrunc
  rw [if_pos (by norm_num)]
  rw [Int.floor_eq_iff]
  norm_num

theorem s6_gen1 :
    generateFullyConnected (fun _ _ => 0) (WeightInit.constant (1/2)) 0 1 2 4 s6Cfgs0 =
      s6Cfgs1 := by
  simp only [generateFullyConnected, quantize_half]
  decide

theorem s6_gen2 :
    generateFullyConnected (fun _ _ => 0) (WeightInit.constant (1/2)) 2 4 5 5 s6Cfgs1 =
      s6Cfgs2 := by
  simp only [generateFullyConnected, quantize_half]
  decide

theorem s6_compile_eq :
    compileTopology s6Topology (fun _ _ => 0) =
      some (compileNeuronTables (assignBalanced 6 (List.range 12)) s6Cfgs2) := by
  have h0 : compileTopology s6Topology (fun _ _ => 0) =
      some (compileNeuronTables (assignBalanced 6 (List.range 12))
        (generateFullyConnected (fun _ _ => 0) (WeightInit.constant (1/2)) 2 4 5 5
          (generateFullyConnected (fun _ _ => 0) (WeightInit.constant (1/2)) 0 1 2 4
            s6Cfgs0))) := rfl
  rw [h0, s6_gen1, s6_gen2]

set_option maxRecDepth 10000 in
/-- C4 (amended): for the S6 topology the compiled tables total exactly
6 x 256 = 1536 bytes, every hidden neuron has exactly 2 synapses and the
output neuron 3 (the synapse_count field at entry offset 16 and the slot
bytes at offset 40), and every synapse weight byte equals 127 —
int(0.5 * 255) with Python int() truncation, not round(0.5 * 255) = 128.
Clamping to [0, 1] happens only in random_normal mode; a constant weight is
used unclamped (last two conjuncts). -/
theorem c4_s6_compile :
    (compileTopology s6Topology (fun _ _ => 0)).map (fun tbls =>
        (tbls.map (fun p => p.2.length)).sum) = some 1536 ∧
    ((compileTopology s6Topology (fun _ _ => 0)).bind (fun tbls =>
        lookupAssoc tbls 2)).map (fun t => (t.getD 16 0, (t.drop 40).take 8)) =
      some (2, [127, 0, 0, 0, 127, 1, 0, 0]) ∧
    ((compileTopology s6Topology (fun _ _ => 0)).bind (fun tbls =>
        lookupAssoc tbls 3)).map (fun t => t.getD 16 0) = some 2 ∧
    ((compileTopology s6Topology (fun _ _ => 0)).bind (fun tbls =>
        lookupAssoc tbls 4)).map (fun t => t.getD 16 0) = some 2 ∧
    ((compileTopology s6Topology (fun _ _ => 0)).bind (fun tbls =>
        lookupAssoc tbls 5)).map (fun t => (t.getD 16 0, (t.drop 40).take 12)) =
      some (3, [127, 2, 0, 0, 127, 3, 0, 0, 127, 4, 0, 0]) ∧
    genWeightFloat (WeightInit.constant (3/2)) 0 = 3/2 ∧
    genWeightFloat (WeightInit.randomNormal 0 1) 2 = 1 := by
  refine ⟨?_, ?_, ?_, ?_, ?_, rfl, ?_⟩
  · rw [s6_compile_eq]
    decide
  · rw [s6_compile_eq]
    decide
  · rw [s6_compile_eq]
    decide
  · rw [s6_compile_eq]
    decide
  · rw [s6_compile_eq]
    decide
  · show max 0 (min 1 2) = (1 : ℚ)
    norm_num

/-- C4 counterexample: the first synapse weight byte of hidden neuron 2's
compiled entry (table byte at offset 40) is 127, not 128 as the claim
states. -/
theorem c4_counterexample :
    ((compileTopology s6Topology (fun _ _ => 0)).bind (fun tbls =>
        lookupAssoc tbls 2)).map (fun t => t.getD 40 0) = some 127 ∧
    (127 : ℕ) ≠ 128 := by
  refine ⟨?_, by decide⟩
  rw [s6_compile_eq]
  decide

/-- C5 (amended): in the plain engine the presynaptic identifier compared
against each synapse is exactly (source_node << 16) | neuron_id masked to 24
bits, so for in-range node and local ids a synapse storing the packed id
node * 2^16 + local matches precisely the spikes of that node's neuron.
(The STDP engine compares the bare spike.neuron_id instead; see the
counterexample.) -/
theorem c5_packed_id_match (sp : Spike) (nodeId localId : ℕ) (w : ℚ) (d : ℕ)
    (_hnode : nodeId < 256) (hlocal : localId < 65536)
    (hspNode : sp.sourceNode < 256) (hspId : sp.neuronId < 65536) :
    spikeGlobalId sp = ((sp.sourceNode <<< 16) ||| sp.neuronId) &&& 0xFFFFFF ∧
    (synapseMatches sp ⟨nodeId * 65536 + localId, w, d⟩ = true ↔
      (sp.sourceNode = nodeId ∧ sp.neuronId = localId)) := by
  have hpack : spikeGlobalId sp = 65536 * sp.sourceNode + sp.neuronId := by
    unfold spikeGlobalId
    have h1 : sp.sourceNode <<< 16 = 65536 * sp.sourceNode := by
      rw [Nat.shiftLeft_eq]
      rw [show (2 : ℕ) ^ 16 = 65536 from rfl]
      ring
    have h2 : 65536 * sp.sourceNode ||| sp.neuronId = 65536 * sp.sourceNode + sp.neuronId := by
      have h := Nat.mul_add_lt_is_or (i := 16) (b := sp.neuronId)
        (by rw [show (2 : ℕ) ^ 16 = 65536 from rfl]; exact hspId) sp.sourceNode
      rw [show (2 : ℕ) ^ 16 = 65536 from rfl] at h
      rw [← h]
    have h3 : (65536 * sp.sourceNode + sp.neuronId) &&& 0xFFFFFF =
        65536 * sp.sourceNode + sp.neuronId := by
      have h := Nat.and_pow_two_sub_one_eq_mod (65536 * sp.sourceNode + sp.neuronId) 24
      norm_num at h
      rw [h]
      apply Nat.mod_eq_of_lt
      omega
    rw [h1, h2, h3]
  refine ⟨rfl, ?_⟩
  unfold synapseMatches
  rw [hpack]
  simp only [decide_eq_true_eq]
  show nodeId * 65536 + localId = 65536 * sp.sourceNode + sp.neuronId ↔ _
  omega

theorem c5_packed_id_match_witness :
    spikeGlobalId ⟨5, 1, 0, 0, 1⟩ =
      ((Spike.sourceNode ⟨5, 1, 0, 0, 1⟩ <<< 16) ||| Spike.neuronId ⟨5, 1, 0, 0, 1⟩) &&&
        0xFFFFFF ∧
    (synapseMatches ⟨5, 1, 0, 0, 1⟩ ⟨1 * 65536 + 5, 1, 1000⟩ = true ↔
      (Spike.sourceNode ⟨5, 1, 0, 0, 1⟩ = 1 ∧ Spike.neuronId ⟨5, 1, 0, 0, 1⟩ = 5)) :=
  c5_packed_id_match ⟨5, 1, 0, 0, 1⟩ 1 5 1 1000
    (by decide) (by decide) (by decide) (by decide)

def c5SynapseSTDP : SynapseSTDP :=
  { sourceNeuronGlobalId := 65541, weight := 1, delayUs := 1000, minWeight := 0,
    maxWeight := 1, lastUpdateTimeUs := 0 }

def c5EngineSTDP : EngineSTDP :=
  { nodeId := 0, backplaneId := 0, cfg := STDPConfig.default,
    neurons := [(1, c3NeuronSTDP)], synapses := [(1, [c5SynapseSTDP])],
    incomingSpikes := [], outgoingSpikes := [], spikeHistory := [(1, [])],
    currentTimeUs := 2000, timestepUs := 1000, stats := StatsSTDP.zero }

/-- C5 counterexample: the claim fails for the STDP engine.  A synapse whose
stored source id is exactly the packed id 65541 = (1 << 16) | 5 does not
receive the spike of neuron 5 on node 1: the STDP drain compares the bare
spike.neuron_id (5), so the target's membrane potential stays at 0. -/
theorem c5_counterexample :
    spikeGlobalId ⟨5, 1, 0, 0, 1⟩ = 65541 ∧
    c5SynapseSTDP.sourceNeuronGlobalId = 65541 ∧
    (processSpikeSTDP id c5EngineSTDP ⟨5, 1, 0, 0, 1⟩).map (fun e =>
        (lookupAssoc e.neurons 1).map NeuronSTDP.membranePotential) = some (some 0) := by
  refine ⟨by decide, rfl, ?_⟩
  simp [processSpikeSTDP, c5EngineSTDP, c3NeuronSTDP, c5SynapseSTDP, STDPConfig.default,
    StatsSTDP.zero, lookupAssoc, insertAssoc, pushHistory, stdpApplyToTarget, fireNeuron,
    applySTDP]

/-- Entry slices of the loop lie inside the table when the index range does:
appending extra bytes beyond the looked-at region cannot change the parse. -/
theorem parseEntries_within (cfg : STDPConfig) (tbl extra : List ℕ) :
    ∀ (count i : ℕ), 256 * (i + count) ≤ tbl.length →
      parseEntries cfg (tbl ++ extra) i count = parseEntries cfg tbl i count := by
  intro count
  induction count with
  | zero => intro i _; rfl
  | succ c ih =>
    intro i hb
    show (do
      let e ← parseEntry cfg (((tbl ++ extra).drop (256 * i)).take 256)
      let r ← parseEntries cfg (tbl ++ extra) (i + 1) c
      some (e :: r)) = (do
      let e ← parseEntry cfg ((tbl.drop (256 * i)).take 256)
      let r ← parseEntries cfg tbl (i + 1) c
      some (e :: r))
    have hslice : ((tbl ++ extra).drop (256 * i)).take 256 =
        (tbl.drop (256 * i)).take 256 := by
      rw [List.drop_append_of_le_length (by omega)]
      rw [List.take_append_of_le_length (by
        rw [List.length_drop]
        omega)]
    rw [hslice, ih (i + 1) (by omega)]

/-- C6 (amended): the loader does not fail on a byte string whose length is
not a multiple of 256 — num_entries = len // 256 silently discards the
trailing bytes, so appending fewer than 256 garbage bytes to a whole table
leaves the load result unchanged (and it still succeeds; the claimed
TableParseError does not exist in the code, see the counterexample). -/
theorem c6_trailing_bytes_ignored (cfg : STDPConfig) (tbl extra : List ℕ)
    (hmod : tbl.length % 256 = 0) (hlt : extra.length < 256) :
    loadNeuronsFromTable cfg (tbl ++ extra) = loadNeuronsFromTable cfg tbl := by
  unfold loadNeuronsFromTable
  have hn : (tbl ++ extra).length / 256 = tbl.length / 256 := by
    rw [List.length_append]
    omega
  rw [hn]
  apply parseEntries_within
  omega

set_option maxRecDepth 10000 in
theorem c6_trailing_bytes_ignored_witness :
    loadNeuronsFromTable STDPConfig.default (List.replicate 256 0 ++ [7, 7]) =
      loadNeuronsFromTable STDPConfig.default (List.replicate 256 0) :=
  c6_trailing_bytes_ignored STDPConfig.default (List.replicate 256 0) [7, 7]
    (by rw [List.length_replicate]) (by decide)

set_option maxRecDepth 10000 in
/-- C6 counterexample: a 300-byte table (one all-zero entry followed by 44
garbage bytes) is not a multiple of 256 long, yet the load succeeds and
returns the one parsed neuron — it does not fail, and the trailing bytes are
silently discarded. -/
theorem c6_counterexample :
    (List.replicate 256 0 ++ List.replicate 44 7).length % 256 ≠ 0 ∧
    loadNeuronsFromTable STDPConfig.default (List.replicate 256 0 ++ List.replicate 44 7) =
      some [⟨0, 0, 0, 0, 0, 0, 0, 0, 0, []⟩] := by
  exact ⟨by decide, by decide⟩

/-- Looking a key up right after writing it returns the written value. -/
theorem lookupKey_insertKeyed_self {α : Type} (l : List ((ℕ × ℕ) × α))
    (key : ℕ × ℕ) (v : α) : lookupKey (insertKeyed l key v) key = some v := by
  induction l with
  | nil => simp [insertKeyed, lookupKey]
  | cons p rest ih =>
    obtain ⟨k, v2⟩ := p
    by_cases hk : k = key
    · simp [insertKeyed, lookupKey, hk]
    · simp [insertKeyed, lookupKey, hk, ih]

/-- A keyed write leaves every other key's binding unchanged. -/
theorem lookupKey_insertKeyed_ne {α : Type} (l : List ((ℕ × ℕ) × α))
    (key k : ℕ × ℕ) (v : α) (hne : k ≠ key) :
    lookupKey (insertKeyed l key v) k = lookupKey l k := by
  induction l with
  | nil => simp [insertKeyed, lookupKey, hne, Ne.symm hne]
  | cons p rest ih =>
    obtain ⟨k2, v2⟩ := p
    by_cases hk : k2 = key
    · subst hk
      simp [insertKeyed, lookupKey, Ne.symm hne]
    · simp [insertKeyed, lookupKey, hk, ih]

/-- C7 (amended): duplicate registration does not fail.  In both
coordinators register_engine is the plain dict write
engines[(backplane_id, node_id)] = engine, so a second registration under an
already-registered key silently replaces the previous engine (and every
other key keeps its binding); no error path exists. -/
theorem c7_register_replaces (c : Coordinator) (e0 e : Engine)
    (cS : CoordinatorSTDP) (f0 f : EngineSTDP)
    (_h : lookupKey c.engines (e.backplaneId, e.nodeId) = some e0)
    (_hS : lookupKey cS.engines (f.backplaneId, f.nodeId) = some f0) :
    lookupEngine (registerEngine c e) (e.backplaneId, e.nodeId) = some e ∧
    (∀ k, k ≠ (e.backplaneId, e.nodeId) →
      lookupKey (registerEngine c e).engines k = lookupKey c.engines k) ∧
    lookupKey (registerEngineSTDP cS f).engines (f.backplaneId, f.nodeId) = some f ∧
    (∀ k, k ≠ (f.backplaneId, f.nodeId) →
      lookupKey (registerEngineSTDP cS f).engines k = lookupKey cS.engines k) := by
  refine ⟨?_, ?_, ?_, ?_⟩
  · exact lookupKey_insertKeyed_self c.engines _ e
  · intro k hk
    exact lookupKey_insertKeyed_ne c.engines _ k e hk
  · exact lookupKey_insertKeyed_self cS.engines _ f
  · intro k hk
    exact lookupKey_insertKeyed_ne cS.engines _ k f hk

def c8EngineSTDP : EngineSTDP :=
  { nodeId := 0, backplaneId := 0, cfg := STDPConfig.default, neurons := [],
    synapses := [], incomingSpikes := [], outgoingSpikes := [], spikeHistory := [],
    currentTimeUs := 0, timestepUs := 1000, stats := StatsSTDP.zero }

theorem c7_register_replaces_witness :
    lookupEngine
        (registerEngine { engines := [((1, 2), Engine.init 2 1)] }
          { Engine.init 2 1 with timestepUs := 500 })
        (1, 2) = some { Engine.init 2 1 with timestepUs := 500 } ∧
    (∀ k, k ≠ (1, 2) →
      lookupKey (registerEngine { engines := [((1, 2), Engine.init 2 1)] }
          { Engine.init 2 1 with timestepUs := 500 }).engines k =
        lookupKey [((1, 2), Engine.init 2 1)] k) ∧
    lookupKey (registerEngineSTDP { engines := [((0, 0), c8EngineSTDP)] }
        { c8EngineSTDP with timestepUs := 500 }).engines (0, 0) =
      some { c8EngineSTDP with timestepUs := 500 } ∧
    (∀ k, k ≠ (0, 0) →
      lookupKey (registerEngineSTDP { engines := [((0, 0), c8EngineSTDP)] }
          { c8EngineSTDP with timestepUs := 500 }).engines k =
        lookupKey [((0, 0), c8EngineSTDP)] k) :=
  c7_register_replaces { engines := [((1, 2), Engine.init 2 1)] }
    (Engine.init 2 1) { Engine.init 2 1 with timestepUs := 500 }
    { engines := [((0, 0), c8EngineSTDP)] }
    c8EngineSTDP { c8EngineSTDP with timestepUs := 500 } (by rfl) (by rfl)

def c7EngineA : Engine := Engine.init 2 1

def c7EngineB : Engine := { Engine.init 2 1 with timestepUs := 500 }

/-- C7 counterexample: registering a second engine under the already-taken
key (1, 2) succeeds and the coordinator afterwards holds the second engine,
not the originally registered one. -/
theorem c7_counterexample :
    lookupEngine (registerEngine (registerEngine { engines := [] } c7EngineA)
        c7EngineB) (1, 2) = some c7EngineB ∧
    c7EngineB ≠ c7EngineA := by
  exact ⟨by rfl, by decide⟩

/-- C8 (amended): the STDP coordinator's inject_spike returns 1 for a
registered (backplane, node) key and 0 with the coordinator untouched for an
unknown key (the plain coordinator also ignores an unknown key, though its
inject_spike returns no count at all).  An unknown local neuron id, however,
is not fully zero-effect on the plain engine: inject_spike counts the
reception before the id lookup, so total_spikes_received grows by 1 while
the neurons, queues and clock stay unchanged. -/
theorem c8_inject_results (c cG : CoordinatorSTDP) (bp node nid : ℕ) (v : ℚ)
    (eG : EngineSTDP) (cp : Coordinator) (en : Engine) (lid : ℕ)
    (hnone : lookupKey c.engines (bp, node) = none)
    (hsome : lookupKey cG.engines (bp, node) = some eG)
    (hpnone : lookupEngine cp (bp, node) = none)
    (hmiss : lookupAssoc en.neurons lid = none) :
    coordinatorInjectSpikeSTDP c nid bp node v = (0, c) ∧
    (coordinatorInjectSpikeSTDP cG nid bp node v).1 = 1 ∧
    coordinatorInjectSpike cp bp node nid v = cp ∧
    (injectSpike en lid v).stats.totalSpikesReceived =
      en.stats.totalSpikesReceived + 1 ∧
    (injectSpike en lid v).neurons = en.neurons ∧
    (injectSpike en lid v).outgoingSpikes = en.outgoingSpikes ∧
    (injectSpike en lid v).incomingSpikes = en.incomingSpikes ∧
    (injectSpike en lid v).currentTimeUs = en.currentTimeUs := by
  refine ⟨?_, ?_, ?_, ?_, ?_, ?_, ?_, ?_⟩
  · unfold coordinatorInjectSpikeSTDP
    rw [hnone]
  · unfold coordinatorInjectSpikeSTDP
    rw [hsome]
  · unfold coordinatorInjectSpike
    rw [hpnone]
  all_goals simp [injectSpike, hmiss]

theorem c8_inject_results_witness :
    coordinatorInjectSpikeSTDP { engines := [] } 3 0 0 1 = (0, { engines := [] }) ∧
    (coordinatorInjectSpikeSTDP { engines := [((0, 0), c8EngineSTDP)] } 3 0 0 1).1 = 1 ∧
    coordinatorInjectSpike { engines := [] } 0 0 3 1 = { engines := [] } ∧
    (injectSpike (Engine.init 0 0) 99 1).stats.totalSpikesReceived =
      (Engine.init 0 0).stats.totalSpikesReceived + 1 ∧
    (injectSpike (Engine.init 0 0) 99 1).neurons = (Engine.init 0 0).neurons ∧
    (injectSpike (Engine.init 0 0) 99 1).outgoingSpikes =
      (Engine.init 0 0).outgoingSpikes ∧
    (injectSpike (Engine.init 0 0) 99 1).incomingSpikes =
      (Engine.init 0 0).incomingSpikes ∧
    (injectSpike (Engine.init 0 0) 99 1).currentTimeUs =
      (Engine.init 0 0).currentTimeUs :=
  c8_inject_results { engines := [] } { engines := [((0, 0), c8EngineSTDP)] }
    0 0 3 1 c8EngineSTDP { engines := [] } (Engine.init 0 0) 99
    (by rfl) (by rfl) (by rfl) (by rfl)

/-- C8 counterexample: injecting into an unknown local id 99 on a fresh
plain engine bumps total_spikes_received to 1, so the statistics counters do
not stay unchanged. -/
theorem c8_counterexample :
    lookupAssoc (Engine.init 0 0).neurons 99 = none ∧
    (injectSpike (Engine.init 0 0) 99 1).stats.totalSpikesReceived = 1 := by
  exact ⟨by rfl, by rfl⟩

/-- A sequence of _update_weight calls on one synapse, each given by its
call time and its delta_w. -/
def foldWeightUpdates (syn : SynapseSTDP) (updates : List (ℕ × ℚ)) : SynapseSTDP :=
  updates.foldl (fun s u => updateWeight u.1 s u.2) syn

/-- One _update_weight call lands inside the synapse's bounds. -/
theorem updateWeight_bounds (now : ℕ) (s : SynapseSTDP) (d : ℚ)
    (h : s.minWeight ≤ s.maxWeight) :
    s.minWeight ≤ (updateWeight now s d).weight ∧
    (updateWeight now s d).weight ≤ s.maxWeight := by
  constructor
  · show s.minWeight ≤ max s.minWeight (min s.maxWeight (s.weight + d))
    exact le_max_left _ _
  · show max s.minWeight (min s.maxWeight (s.weight + d)) ≤ s.maxWeight
    exact max_le h (min_le_left _ _)

/-- Once inside its bounds, a synapse stays inside them under any further
update sequence, and the bound fields themselves never move. -/
theorem foldWeightUpdates_keeps (updates : List (ℕ × ℚ)) :
    ∀ (s : SynapseSTDP), s.minWeight ≤ s.weight → s.weight ≤ s.maxWeight →
      (foldWeightUpdates s updates).minWeight = s.minWeight ∧
      (foldWeightUpdates s updates).maxWeight = s.maxWeight ∧
      s.minWeight ≤ (foldWeightUpdates s updates).weight ∧
      (foldWeightUpdates s updates).weight ≤ s.maxWeight := by
  induction updates with
  | nil => intro s h1 h2; exact ⟨rfl, rfl, h1, h2⟩
  | cons u rest ih =>
    intro s h1 h2
    have hmm : s.minWeight ≤ s.maxWeight := le_trans h1 h2
    have hstep := updateWeight_bounds u.1 s u.2 hmm
    have hkeep := ih (updateWeight u.1 s u.2) hstep.1 hstep.2
    exact ⟨hkeep.1, hkeep.2.1, hkeep.2.2.1, hkeep.2.2.2⟩

/-- C9: STDP weight bounds invariant.  For any synapse with
min_weight ≤ max_weight and any nonempty sequence of _update_weight calls
(arbitrary interleaving of positive and negative deltas of any magnitude),
the resulting weight satisfies min_weight ≤ weight ≤ max_weight, and the
bound fields are untouched — so the invariant holds after every update of
any longer sequence as well. -/
theorem c9_weight_bounds (syn : SynapseSTDP) (updates : List (ℕ × ℚ))
    (hmm : syn.minWeight ≤ syn.maxWeight) (hne : updates ≠ []) :
    syn.minWeight ≤ (foldWeightUpdates syn updates).weight ∧
    (foldWeightUpdates syn updates).weight ≤ syn.maxWeight ∧
    (foldWeightUpdates syn updates).minWeight = syn.minWeight ∧
    (foldWeightUpdates syn updates).maxWeight = syn.maxWeight := by
  cases updates with
  | nil => exact absurd rfl hne
  | cons u rest =>
    have hstep := updateWeight_bounds u.1 syn u.2 hmm
    have hkeep := foldWeightUpdates_keeps rest (updateWeight u.1 syn u.2)
      hstep.1 hstep.2
    exact ⟨hkeep.2.2.1, hkeep.2.2.2, hkeep.1, hkeep.2.1⟩

def c9Synapse : SynapseSTDP :=
  { sourceNeuronGlobalId := 7, weight := 5, delayUs := 1000, minWeight := 0,
    maxWeight := 1, lastUpdateTimeUs := 0 }

theorem c9_weight_bounds_witness :
    c9Synapse.minWeight ≤
      (foldWeightUpdates c9Synapse [(10, 100), (20, -300)]).weight ∧
    (foldWeightUpdates c9Synapse [(10, 100), (20, -300)]).weight ≤
      c9Synapse.maxWeight ∧
    (foldWeightUpdates c9Synapse [(10, 100), (20, -300)]).minWeight =
      c9Synapse.minWeight ∧
    (foldWeightUpdates c9Synapse [(10, 100), (20, -300)]).maxWeight =
      c9Synapse.maxWeight :=
  c9_weight_bounds c9Synapse [(10, 100), (20, -300)]
    (by norm_num [c9Synapse]) (by simp)

/-- A successful 32-bit read lies wholly inside the byte list. -/
theorem readU32_some_bound (l : List ℕ) (i w : ℕ) (h : readU32 l i = some w) :
    i + 4 ≤ l.length := by
  unfold readU32 at h
  split at h
  · rename_i b0 b1 b2 b3 t heq
    have hlen : l.length - i = (l.drop i).length := (List.length_drop i l).symm
    rw [heq] at hlen
    simp at hlen
    omega
  · exact absurd h (by simp)

/-- A successful slot loop returns exactly count synapses and only after
reading bytes up to offset 4 * (j + count) of the slot region. -/
theorem parseSlots_some (cfg : STDPConfig) (l : List ℕ) :
    ∀ (count j : ℕ) (syns : List SynapseSTDP),
      parseSlots cfg l j count = some syns →
      syns.length = count ∧ (0 < count → 4 * (j + count) ≤ l.length) := by
  intro count
  induction count with
  | zero =>
    intro j syns h
    have h' : some [] = some syns := h
    simp at h'
    subst h'
    exact ⟨rfl, by omega⟩
  | succ c ih =>
    intro j syns h
    have h' : (do
        let v ← readU32 l (4 * j)
        let rest ← parseSlots cfg l (j + 1) c
        some (mkLoadedSynapse cfg v :: rest)) = some syns := h
    cases hv : readU32 l (4 * j) with
    | none => rw [hv] at h'; simp at h'
    | some v =>
      rw [hv] at h'
      cases hr : parseSlots cfg l (j + 1) c with
      | none => rw [hr] at h'; simp at h'
      | some rest =>
        rw [hr] at h'
        simp at h'
        obtain ⟨hlen_ih, hbound_ih⟩ := ih (j + 1) rest hr
        have hb := readU32_some_bound l (4 * j) v hv
        subst h'
        refine ⟨by simp [hlen_ih], ?_⟩
        intro _
        rcases Nat.eq_zero_or_pos c with hc | hc
        · omega
        · have := hbound_ih hc
          omega

/-- C10 (amended): the loader caps the slot loop at min(synapse_count, 60)
and reads each slot from the 4-byte word at entry offset 40 + 4 * j, so a
successfully parsed 256-byte entry holds exactly min(synapse_count, 60)
synapses — but the cap does not make oversized counts safe: only 54 slots
fit between offset 40 and the entry end, so any entry that parses at all has
synapse_count ≤ 54 (a count of 55 or more, in particular one above 60, makes
the loader fail with a struct.error instead of loading; see the
counterexample). -/
theorem c10_loader_caps (cfg : STDPConfig) (entry : List ℕ) (pn : ParsedNeuron)
    (hlen : entry.length = 256) (hp : parseEntry cfg entry = some pn) :
    pn.synapses.length = min pn.synapseCount 60 ∧ pn.synapseCount ≤ 54 := by
  unfold parseEntry at hp
  split at hp
  · rename_i i0 i1 f0 f1 v0 v1 v2 v3 t0 t1 t2 t3 s0 s1 s2 s3 c0 c1 p0 p1
      q0 q1 q2 q3 l0 l1 l2 l3 u0 u1 u2 u3 rest
    dsimp only at hp
    have hrest : rest.length = 224 := by
      simp [List.length_cons] at hlen
      omega
    cases hs : parseSlots cfg (rest.drop 8) 0 (min (dec16 c0 c1) 60) with
    | none => rw [hs] at hp; simp at hp
    | some syns =>
      rw [hs] at hp
      simp at hp
      obtain ⟨hslen, hbound⟩ :=
        parseSlots_some cfg (rest.drop 8) (min (dec16 c0 c1) 60) 0 syns hs
      have hdlen : (rest.drop 8).length = 216 := by
        rw [List.length_drop]
        omega
      subst hp
      refine ⟨hslen, ?_⟩
      by_contra hgt
      push_neg at hgt
      have hpos : 0 < min (dec16 c0 c1) 60 := by
        simp only [ParsedNeuron.synapseCount] at hgt
        omega
      have := hbound hpos
      simp only [ParsedNeuron.synapseCount] at hgt
      omega
  · exact absurd hp (by simp)

def c10Entry : List ℕ := List.replicate 16 0 ++ [2, 0] ++ List.replicate 238 0

def c10Parsed : ParsedNeuron :=
  { neuronId := 0, flags := 0, membranePotentialBits := 0, thresholdBits := 0,
    lastSpikeTimeUs := 0, synapseCount := 2, synapseCapacity := 0,
    leakRateBits := 0, refractoryPeriodUs := 0,
    synapses := [mkLoadedSynapse STDPConfig.default 0,
                 mkLoadedSynapse STDPConfig.default 0] }

set_option maxRecDepth 10000 in
theorem c10_loader_caps_witness :
    c10Parsed.synapses.length = min c10Parsed.synapseCount 60 ∧
    c10Parsed.synapseCount ≤ 54 :=
  c10_loader_caps STDPConfig.default c10Entry c10Parsed
    (by simp [c10Entry]) (by rfl)

def c10Entry61 : List ℕ := List.replicate 16 0 ++ [61, 0] ++ List.replicate 238 0

set_option maxRecDepth 10000 in
/-- C10 counterexample: a well-sized 256-byte entry whose synapse_count
field reads 61 (> 60) does not load: the capped loop still asks for 60
slots, slot 54 would start at entry offset 256, and the read past the entry
boundary makes the loader fail (none), not load without error. -/
theorem c10_counterexample :
    c10Entry61.length = 256 ∧ c10Entry61.getD 16 0 = 61 ∧ 60 < 61 ∧
    loadNeuronsFromTable STDPConfig.default c10Entry61 = none := by
  refine ⟨by decide, by decide, by decide, by decide⟩

end Z1
